import Mathlib

/-!
# go-fileserver: the upload handler and local address discovery

A shallow embedding of `main.go`.  Go strings are Lean `String`s, byte
slices are lists of naturals, `error` results are `Except`/`Option`, and
the library calls the program makes (`net`, `path/filepath`, `os`,
`net/http`, `html/template`) are modelled by executable definitions that
follow the documented behaviour of the Go standard library on Unix.
-/

namespace FileServer

/-! ## Constants of `main.go` -/

/-- The constant `maxUploadSize = 20 * 1024 * 1024`. -/
def maxUploadSize : Nat := 20 * 1024 * 1024

/-- The constant `http.StatusOK`. -/
def StatusOK : Nat := 200

/-- The constant `http.StatusBadRequest`. -/
def StatusBadRequest : Nat := 400

/-- The constant `http.StatusInternalServerError`. -/
def StatusInternalServerError : Nat := 500

/-! ## Decimal formatting (`strconv.Itoa`) -/

/-- Decimal digits of a natural number, most significant first; `fuel`
bounds the number of digits produced. -/
def uitoaCore : Nat → Nat → List Char → List Char
  | 0, _, acc => acc
  | fuel + 1, n, acc =>
    let d := Char.ofNat (48 + n % 10)
    if n / 10 = 0 then d :: acc else uitoaCore fuel (n / 10) (d :: acc)

/-- Decimal form of an unsigned value. -/
def uitoa (n : Nat) : List Char := uitoaCore (n + 1) n []

/-- The function `strconv.Itoa`: decimal form of a Go `int`, with a
leading minus sign for a negative value. -/
def Itoa (i : Int) : String :=
  match i with
  | Int.ofNat n => String.mk (uitoa n)
  | Int.negSucc n => String.mk ('-' :: uitoa (n + 1))

/-! ## The `net` package: addresses -/

/-- The type `net.IP`: a slice of bytes (4 for IPv4, 16 for IPv6). -/
abbrev IP := List Nat

/-- The dynamic types a `net.Addr` value can have. -/
inductive Addr where
  | IPNet (ip : IP) (mask : List Nat)
  | IPAddr (ip : IP) (zone : String)
  | other (network : String) (text : String)
  deriving DecidableEq, Repr

/-- The constant `net.IPv4len`. -/
def IPv4len : Nat := 4

/-- The constant `net.IPv6len`. -/
def IPv6len : Nat := 16

/-- The variable `net.IPv6loopback`, the address `::1`. -/
def IPv6loopback : IP := [0, 0, 0, 0, 0, 0, 0, 0, 0, 0, 0, 0, 0, 0, 0, 1]

/-- The prefix of an IPv4 address mapped into IPv6. -/
def v4InV6Prefix : List Nat := [0, 0, 0, 0, 0, 0, 0, 0, 0, 0, 0xff, 0xff]

/-- The method `IP.To4`: the 4-byte form of an IPv4 address, `none` for
Go's `nil` when the address is not an IPv4 address. -/
def IP.To4 (ip : IP) : Option IP :=
  if ip.length = IPv4len then some ip
  else if ip.length = IPv6len ∧ (ip.take 10).all (fun b => b == 0)
      ∧ ip.getD 10 0 = 0xff ∧ ip.getD 11 0 = 0xff then
    some (ip.drop 12)
  else none

/-- The method `IP.Equal`. -/
def IP.Equal (ip x : IP) : Bool :=
  if ip.length = x.length then ip == x
  else if ip.length = IPv4len ∧ x.length = IPv6len then
    x.take 12 == v4InV6Prefix && ip == x.drop 12
  else if ip.length = IPv6len ∧ x.length = IPv4len then
    ip.take 12 == v4InV6Prefix && ip.drop 12 == x
  else false

/-- The method `IP.IsLoopback`. -/
def IP.IsLoopback (ip : IP) : Bool :=
  match ip.To4 with
  | some ip4 => ip4.getD 0 0 == 127
  | none => IP.Equal ip IPv6loopback

/-- Dotted decimal form of a list of bytes. -/
def dotted : List Nat → List Char
  | [] => []
  | [b] => uitoa b
  | b :: bs => uitoa b ++ '.' :: dotted bs

/-- Lower-case hexadecimal digit. -/
def hexDigit (n : Nat) : Char :=
  if n % 16 < 10 then Char.ofNat (48 + n % 16) else Char.ofNat (87 + n % 16)

/-- Hexadecimal digits of a natural number without leading zeros. -/
def hexCore : Nat → Nat → List Char → List Char
  | 0, _, acc => acc
  | fuel + 1, n, acc =>
    if n / 16 = 0 then hexDigit n :: acc else hexCore fuel (n / 16) (hexDigit n :: acc)

/-- The 16-bit groups of a 16-byte address. -/
def groups16 : List Nat → List Nat
  | hi :: lo :: rest => (hi * 256 + lo) :: groups16 rest
  | _ => []

/-- Length of the run of zero groups at the head of a list. -/
def zeroRun : List Nat → Nat
  | 0 :: rest => zeroRun rest + 1
  | _ => 0

/-- Start and length of the longest run of zero groups (the first one
when several have the same length), scanning from index `i`. -/
def longestZeroRun : Nat → List Nat → Nat × Nat → Nat × Nat
  | _, [], best => best
  | i, g :: rest, best =>
    let n := zeroRun (g :: rest)
    longestZeroRun (i + 1) rest (if n > best.2 then (i, n) else best)

/-- Colon-separated hexadecimal groups. -/
def hexGroups : List Nat → List Char
  | [] => []
  | [g] => hexCore (g + 1) g []
  | g :: gs => hexCore (g + 1) g [] ++ ':' :: hexGroups gs

/-- Textual form of a 16-byte IPv6 address, the longest run of two or more
zero groups shortened to `::`. -/
def ipv6Text (ip : IP) : List Char :=
  let gs := groups16 ip
  let run := longestZeroRun 0 gs (0, 0)
  if run.2 < 2 then hexGroups gs
  else hexGroups (gs.take run.1) ++ ':' :: ':' :: hexGroups (gs.drop (run.1 + run.2))

/-- The method `IP.String`. -/
def IP.String (ip : IP) : String :=
  if ip.length = 0 then "<nil>"
  else if ip.length ≠ IPv4len ∧ ip.length ≠ IPv6len then
    String.mk ('?' :: ip.flatMap (fun b => [hexDigit (b / 16), hexDigit b]))
  else
    match ip.To4 with
    | some p4 => String.mk (dotted p4)
    | none => String.mk (ipv6Text ip)

deriving instance DecidableEq for Except

/-! ## `dropError` and `GetLocalIPAddrs` -/

/-- The function `dropError`: `log.Fatal` on a non-nil error, which ends
the process (`Except.error`); otherwise the error is handed back. -/
def dropError (err : Option String) : Except String (Option String) :=
  match err with
  | some e => .error e
  | none => .ok err

/-- The loop body of `GetLocalIPAddrs`: the address is appended when it is
a `*net.IPNet`, not loopback, and `To4` is not nil. -/
def GetLocalIPAddrs.step (ips : List String) (address : Addr) : List String :=
  match address with
  | .IPNet ip _ =>
    if !IP.IsLoopback ip then
      if (IP.To4 ip).isSome then ips ++ [IP.String ip] else ips
    else ips
  | _ => ips

/-- The function `GetLocalIPAddrs`.  The arguments are the two results
`addrs, err` of `net.InterfaceAddrs()`; the result is `Except.error` when
`dropError` ends the process, and otherwise the returned pair
`(ips, nil)`. -/
def GetLocalIPAddrs (addrs : List Addr) (err : Option String) :
    Except String (List String × Option String) :=
  match dropError err with
  | .error e => .error e
  | .ok _ => .ok (addrs.foldl GetLocalIPAddrs.step [], none)

/-! ## `path/filepath` on Unix -/

/-- Split a path at every `/`. -/
def splitSlash : List Char → List (List Char)
  | [] => [[]]
  | c :: cs =>
    if c = '/' then [] :: splitSlash cs
    else
      match splitSlash cs with
      | [] => [[c]]
      | x :: xs => (c :: x) :: xs

/-- One path element of `filepath.Clean`; `out` holds the elements kept so
far, the last one first.  Empty and `.` elements are dropped; `..` removes
the element before it when there is one that is not `..`, is kept at the
start of a path that is not rooted, and is dropped at the start of a rooted
path. -/
def Clean.step (rooted : Bool) (out : List (List Char)) (elem : List Char) :
    List (List Char) :=
  if elem = [] ∨ elem = ['.'] then out
  else if elem = ['.', '.'] then
    match out with
    | top :: below =>
      if top = ['.', '.'] then (if rooted then out else elem :: out) else below
    | [] => if rooted then out else [elem]
  else elem :: out

/-- Join path elements with `/`. -/
def joinSlash : List (List Char) → List Char
  | [] => []
  | [e] => e
  | e :: es => e ++ '/' :: joinSlash es

/-- The function `filepath.Clean`. -/
def filepath.Clean (path : String) : String :=
  if path = "" then "."
  else
    let rooted := path.data.head? == some '/'
    let out := (splitSlash path.data).foldl (Clean.step rooted) []
    let body := joinSlash out.reverse
    if rooted then String.mk ('/' :: body)
    else if body = [] then "."
    else String.mk body

/-- The function `filepath.Join` at two elements: empty elements are
ignored and the result is cleaned. -/
def filepath.Join (a b : String) : String :=
  if a ≠ "" then filepath.Clean (a ++ "/" ++ b)
  else if b ≠ "" then filepath.Clean b
  else ""

/-- The function `filepath.Base`: the last element of a path, trailing
slashes removed first; `.` for the empty path and `/` for a path of
slashes only. -/
def filepath.Base (path : String) : String :=
  if path = "" then "."
  else
    let stripped := path.data.reverse.dropWhile (fun c => c == '/')
    let last := (stripped.takeWhile (fun c => c != '/')).reverse
    if last = [] then "/" else String.mk last

/-- The function `path.Clean`: the slash-separated form of
`filepath.Clean`, with which it agrees on Unix. -/
def path.Clean (p : String) : String := filepath.Clean p

/-! ## The file system and `os.File` -/

/-- Contents of a byte slice. -/
abbrev Bytes := List Nat

/-- The file system: the contents of the regular file at each path, when
there is one. -/
abbrev FS := String → Option Bytes

/-- Replace the contents of the file at `name`. -/
def FS.set (fs : FS) (name : String) (b : Bytes) : FS :=
  fun p => if p = name then some b else fs p

/-- What the operating system answers to the handler's file operations
during one request. -/
structure OS where
  /-- Whether `os.Create` of this path fails. -/
  createFails : String → Bool
  /-- When `Write` fails, the number of bytes it wrote before failing. -/
  writeFails : Option Nat
  /-- Whether `Close` fails. -/
  closeFails : Bool

/-- The function `os.Create`: on success the file exists and is empty
(created, or truncated when it existed); on failure nothing changes. -/
def os.Create (o : OS) (name : String) (fs : FS) : Except String FS :=
  if o.createFails name then .error "open failed" else .ok (fs.set name [])

/-- The method `File.Write` on a file opened by `os.Create`: the bytes are
appended at the file offset, all of them on success and the first `n` of
them when the write fails after `n` bytes. -/
def File.Write (o : OS) (name : String) (b : Bytes) (fs : FS) : FS × Option String :=
  match o.writeFails with
  | none => (fs.set name ((fs name).getD [] ++ b), none)
  | some n => (fs.set name ((fs name).getD [] ++ b.take n), some "short write")

/-- The method `File.Close`; the contents on disk are left as written. -/
def File.Close (o : OS) : Option String :=
  if o.closeFails then some "close failed" else none

/-! ## `net/http`: response writer and request -/

/-- The visible state of an `http.ResponseWriter`: the status code once the
header has been written, and the byte strings passed to `Write`, in
order. -/
structure ResponseWriter where
  status : Option Nat
  writes : List String
  deriving DecidableEq, Repr

/-- The response writer the server hands to a handler. -/
def ResponseWriter.fresh : ResponseWriter := { status := none, writes := [] }

/-- The method `WriteHeader`: the first call fixes the status code. -/
def ResponseWriter.WriteHeader (w : ResponseWriter) (code : Nat) : ResponseWriter :=
  match w.status with
  | none => { w with status := some code }
  | some _ => w

/-- The method `Write`: writes the header with `StatusOK` when it has not
been written, then the bytes. -/
def ResponseWriter.Write (w : ResponseWriter) (b : String) : ResponseWriter :=
  let w1 := w.WriteHeader StatusOK
  { w1 with writes := w1.writes ++ [b] }

/-- The response body: everything written, in order. -/
def ResponseWriter.body (w : ResponseWriter) : String :=
  String.join w.writes

/-- The type `multipart.File`, as far as the handler uses it: the result of
reading it to the end. -/
structure File where
  ReadAll : Except String Bytes

/-- The type `multipart.FileHeader`: the file name and declared size, and
the result of `Open`.  The multipart reader stores as `Filename` the last
element (`filepath.Base`) of the file name the client sent. -/
structure FileHeader where
  Filename : String
  Size : Int
  Open : Except String File

/-- The type `multipart.Form`, as far as the handler uses it: the file
parts by field name. -/
structure Form where
  File : String → List FileHeader

/-- The type `http.Request`, as far as the handler uses it: the method and
the result of parsing the body as a multipart form with a given memory
limit. -/
structure Request where
  Method : String
  ParseMultipartForm : Nat → Except String Form

/-- The method `Request.FormFile` once the form has been parsed: the first
file part of that field name, opened. -/
def FormFile (form : Form) (key : String) : Except String (File × FileHeader) :=
  match form.File key with
  | fh :: _ =>
    match fh.Open with
    | .ok f => .ok (f, fh)
    | .error e => .error e
  | [] => .error "http: no such file"

/-! ## `html/template`: the upload form -/

/-- The variable `tpl`: the page with the upload form, the action `.`
inside the form's `action` attribute. -/
def tpl : String :=
  "\n<!DOCTYPE html>\n<html>\n\t<head>\n\t\t<title>fileserer - upload</title>\n\t</head>\n\t<body>\n\t\t<form enctype=\"multipart/form-data\" action=\"http://\x7b\x7b.\x7d\x7d/upload\" method=\"post\">\n\t\t\t<input type=\"file\" name=\"uploadFile\" />\n\t\t\t<input type=\"submit\" value=\"upload\" />\n\t\t</form>\n\t</body>\n</html>\n"

/-- A node of a parsed template: literal text, or the action that prints
the data value. -/
inductive Node where
  | text (s : String)
  | dot
  deriving DecidableEq, Repr

/-- The text node of the characters collected so far (held last one
first), when there are any. -/
def Template.flush (acc : List Char) : List Node :=
  if acc = [] then [] else [.text (String.mk acc.reverse)]

/-- Split template text at every action `.` between double braces; `skip`
counts the characters of an action still to be passed over. -/
def Template.parseChars : Nat → List Char → List Char → List Node
  | _, acc, [] => Template.flush acc
  | skip + 1, acc, _ :: rest => Template.parseChars skip acc rest
  | 0, acc, c :: rest =>
    if c = '{' ∧ rest.take 4 = ['{', '.', '}', '}'] then
      Template.flush acc ++ .dot :: Template.parseChars 4 [] rest
    else Template.parseChars 0 (c :: acc) rest

/-- The method `Template.Parse`, for templates whose only action is `.`. -/
def Template.Parse (text : String) : List Node :=
  Template.parseChars 0 [] text.data

/-- The text of `tpl` before the action. -/
def tplBefore : String :=
  "\n<!DOCTYPE html>\n<html>\n\t<head>\n\t\t<title>fileserer - upload</title>\n\t</head>\n\t<body>\n\t\t<form enctype=\"multipart/form-data\" action=\"http://"

/-- The text of `tpl` after the action. -/
def tplAfter : String :=
  "/upload\" method=\"post\">\n\t\t\t<input type=\"file\" name=\"uploadFile\" />\n\t\t\t<input type=\"submit\" value=\"upload\" />\n\t\t</form>\n\t</body>\n</html>\n"

/-- Percent-encoding of every UTF-8 byte of a character, two lower-case
hexadecimal digits each. -/
def percentEncode (c : Char) : List Char :=
  (String.utf8EncodeChar c).flatMap
    (fun b => ['%', hexDigit (b.toNat / 16), hexDigit b.toNat])

/-- Whether a character is a hexadecimal digit. -/
def isHex (c : Char) : Bool :=
  ('0' ≤ c && c ≤ '9') || ('a' ≤ c && c ≤ 'f') || ('A' ≤ c && c ≤ 'F')

/-- The reserved characters the URL normaliser leaves alone. -/
def urlReserved : List Char :=
  ['!', '#', '$', '&', '*', '+', ',', '/', ':', ';', '=', '?', '@', '[', ']']

/-- The unreserved punctuation of RFC 3986. -/
def urlUnreserved : List Char := ['-', '.', '_', '~']

/-- The escaper `_html_template_urlnormalizer` on a string value: reserved
and unreserved characters and valid percent escapes are kept, every other
byte is percent-encoded. -/
def urlNormalizer : List Char → List Char
  | [] => []
  | c :: rest =>
    if c ∈ urlReserved then c :: urlNormalizer rest
    else if c ∈ urlUnreserved then c :: urlNormalizer rest
    else if c = '%' then
      match rest with
      | a :: b :: _ =>
        if isHex a && isHex b then c :: urlNormalizer rest
        else percentEncode c ++ urlNormalizer rest
      | _ => percentEncode c ++ urlNormalizer rest
    else if ('a' ≤ c && c ≤ 'z') || ('A' ≤ c && c ≤ 'Z') || ('0' ≤ c && c ≤ '9') then
      c :: urlNormalizer rest
    else percentEncode c ++ urlNormalizer rest

/-- The replacement table of `_html_template_attrescaper` for a string
value. -/
def attrEscapeChar (c : Char) : List Char :=
  if c = Char.ofNat 0 then [Char.ofNat 0xFFFD]
  else if c = Char.ofNat 34 then "&#34;".data
  else if c = '&' then "&amp;".data
  else if c = Char.ofNat 39 then "&#39;".data
  else if c = '+' then "&#43;".data
  else if c = '<' then "&lt;".data
  else if c = '>' then "&gt;".data
  else [c]

/-- The escaper `_html_template_attrescaper` on a string value. -/
def attrEscaper (s : List Char) : List Char := s.flatMap attrEscapeChar

/-- One node of `Template.Execute`: text is written as it is; the action
stands in a double-quoted URL attribute after the scheme, where
`html/template` writes the data through the URL normaliser and then the
attribute escaper. -/
def Template.execNode (data : String) (w : ResponseWriter) (n : Node) : ResponseWriter :=
  match n with
  | .text s => w.Write s
  | .dot => w.Write (String.mk (attrEscaper (urlNormalizer data.data)))

/-- The method `Template.Execute`: the nodes are written in order. -/
def Template.Execute (t : List Node) (w : ResponseWriter) (data : String) : ResponseWriter :=
  t.foldl (Template.execNode data) w

/-! ## `renderError` and `uploadFileHandler` -/

/-- The function `renderError`: the status written is `StatusBadRequest`,
whatever `statusCode` is. -/
def renderError (w : ResponseWriter) (message : String) (_statusCode : Nat) : ResponseWriter :=
  (w.WriteHeader StatusBadRequest).Write message

/-- The library and system calls a request makes, in order. -/
inductive Call where
  | ParseMultipartForm (maxMemory : Nat)
  | FormFile (key : String)
  | ReadAll
  | Create (name : String)
  | Write (len : Nat)
  | Close
  deriving DecidableEq, Repr

/-- What a request can change: the response, the file system, and the
record of the calls made. -/
structure World where
  w : ResponseWriter
  fs : FS
  calls : List Call

/-- Record a call. -/
def World.call (s : World) (c : Call) : World := { s with calls := s.calls ++ [c] }

/-- How a handler invocation ends: it returns, or it panics. -/
inductive Outcome where
  | returned (s : World)
  | panicked (msg : String) (s : World)

/-- The handler function that `uploadFileHandler` returns, for the values
of the globals `port` and `rootPath` and the captured `localIps`.  The
deferred `Close` calls release the handles after the response has been
decided; they change neither the response nor the contents on disk and are
not recorded. -/
def uploadFileHandler.serve (port : Int) (rootPath : String) (localIps : List String)
    (o : OS) (r : Request) (s : World) : Outcome :=
  if r.Method = "GET" then
    match localIps with
    | [] => .panicked "runtime error: index out of range [0] with length 0" s
    | ip0 :: _ =>
      let t := Template.Parse tpl
      .returned { s with w := Template.Execute t s.w (ip0 ++ ":" ++ Itoa port) }
  else
    let s := s.call (.ParseMultipartForm maxUploadSize)
    match r.ParseMultipartForm maxUploadSize with
    | .error _ =>
      .returned { s with w := renderError s.w "CANT_PARSE_FORM" StatusInternalServerError }
    | .ok form =>
      let s := s.call (.FormFile "uploadFile")
      match FormFile form "uploadFile" with
      | .error _ =>
        .returned { s with w := renderError s.w "INVALID_FILE" StatusBadRequest }
      | .ok (file, fileHeader) =>
        let fileSize := fileHeader.Size
        if fileSize > maxUploadSize then
          .returned { s with w := renderError s.w "FILE_TOO_BIG" StatusBadRequest }
        else
          let s := s.call .ReadAll
          match file.ReadAll with
          | .error _ =>
            .returned { s with w := renderError s.w "INVALID_FILE" StatusBadRequest }
          | .ok fileBytes =>
            let fileName := fileHeader.Filename
            let newPath := filepath.Join rootPath fileName
            let s := s.call (.Create newPath)
            match os.Create o newPath s.fs with
            | .error _ =>
              .returned { s with w := renderError s.w "CANT_WRITE_FILE" StatusInternalServerError }
            | .ok fs1 =>
              let s := { s with fs := fs1 }.call (.Write fileBytes.length)
              match File.Write o newPath fileBytes s.fs with
              | (fs2, some _) =>
                .returned { s with fs := fs2,
                                   w := renderError s.w "CANT_WRITE_FILE" StatusInternalServerError }
              | (fs2, none) =>
                let s := { s with fs := fs2 }.call .Close
                match File.Close o with
                | some _ =>
                  .returned { s with w := renderError s.w "CANT_WRITE_FILE" StatusInternalServerError }
                | none =>
                  .returned { s with w := s.w.Write (fileName ++ " upload success") }

/-- The function `uploadFileHandler`: the local addresses are discovered
once, and the handler is returned unless `dropError` ends the process. -/
def uploadFileHandler (port : Int) (rootPath : String) (addrs : List Addr)
    (err : Option String) : Except String (OS → Request → World → Outcome) :=
  match GetLocalIPAddrs addrs err with
  | .error e => .error e
  | .ok (localIps, err) =>
    match dropError err with
    | .error e => .error e
    | .ok _ => .ok (uploadFileHandler.serve port rootPath localIps)

/-- The state in which the server calls a handler: a fresh response writer,
no call made yet. -/
def World.start (fs : FS) : World := { w := ResponseWriter.fresh, fs := fs, calls := [] }

/-- The world an invocation ends in, whether it returned or panicked. -/
def Outcome.world : Outcome → World
  | .returned s => s
  | .panicked _ s => s

/-- Whether the invocation returned normally. -/
def Outcome.isReturned : Outcome → Bool
  | .returned _ => true
  | .panicked _ _ => false

/-! ## The specification's vocabulary -/

/-- An address qualifies when it is an IP network, not loopback, and
expressible as IPv4. -/
def qualifies (a : Addr) : Bool :=
  match a with
  | .IPNet ip _ => !IP.IsLoopback ip && (IP.To4 ip).isSome
  | _ => false

/-- The string form of the IP of an address. -/
def addrText (a : Addr) : String :=
  match a with
  | .IPNet ip _ => IP.String ip
  | .IPAddr ip _ => IP.String ip
  | .other _ text => text

/-- Address discovery as the specification words it: keep the qualifying
addresses, in enumeration order, and take their string forms. -/
def list_local_ipv4_addresses (addrs : List Addr) : List String :=
  (addrs.filter qualifies).map addrText

/-- The steps of the POST pipeline, in their fixed order. -/
inductive Step where
  | parseForm
  | extractFile
  | sizeCheck
  | readPayload
  | createFile
  | writeFile
  deriving DecidableEq, Repr

/-- The pipeline, in order. -/
def pipeline : List Step :=
  [.parseForm, .extractFile, .sizeCheck, .readPayload, .createFile, .writeFile]

/-- Position of a step in the pipeline. -/
def Step.index : Step → Nat
  | .parseForm => 0
  | .extractFile => 1
  | .sizeCheck => 2
  | .readPayload => 3
  | .createFile => 4
  | .writeFile => 5

/-- The message of a failing step. -/
def Step.message : Step → String
  | .parseForm => "CANT_PARSE_FORM"
  | .extractFile => "INVALID_FILE"
  | .sizeCheck => "FILE_TOO_BIG"
  | .readPayload => "INVALID_FILE"
  | .createFile => "CANT_WRITE_FILE"
  | .writeFile => "CANT_WRITE_FILE"

/-- The step a call belongs to. -/
def Call.step : Call → Step
  | .ParseMultipartForm _ => .parseForm
  | .FormFile _ => .extractFile
  | .ReadAll => .readPayload
  | .Create _ => .createFile
  | .Write _ => .writeFile
  | .Close => .writeFile

/-- The parsed form of a request, when parsing succeeds. -/
def Request.form (r : Request) : Option Form :=
  match r.ParseMultipartForm maxUploadSize with
  | .ok f => some f
  | .error _ => none

/-- The opened `uploadFile` part of a request and its header, when there is
one. -/
def Request.part (r : Request) : Option (File × FileHeader) :=
  match r.form with
  | some f =>
    match FormFile f "uploadFile" with
    | .ok p => some p
    | .error _ => none
  | none => none

/-- The payload of the `uploadFile` part, when it can be read. -/
def Request.payload (r : Request) : Option Bytes :=
  match r.part with
  | some p =>
    match p.1.ReadAll with
    | .ok b => some b
    | .error _ => none
  | none => none

/-- Whether a step of the pipeline fails for this request and these
answers of the operating system (a step whose input is missing because an
earlier step failed counts as failing only through that earlier step). -/
def Step.fails (rootPath : String) (o : OS) (r : Request) : Step → Bool
  | .parseForm => r.form.isNone
  | .extractFile => r.part.isNone
  | .sizeCheck =>
    match r.part with
    | some p => decide (p.2.Size > 20971520)
    | none => false
  | .readPayload => r.payload.isNone
  | .createFile =>
    match r.part with
    | some p => o.createFails (filepath.Join rootPath p.2.Filename)
    | none => false
  | .writeFile => o.writeFails.isSome || o.closeFails

/-- The earliest failing step of the pipeline, if any step fails. -/
def earliestFailure (rootPath : String) (o : OS) (r : Request) : Option Step :=
  pipeline.find? (Step.fails rootPath o r)

/-- Whether a file name has a `..` path segment. -/
def hasDotDotSegment (name : String) : Bool :=
  (splitSlash name.data).contains ['.', '.']

/-- A request is well formed when the declared size of its `uploadFile`
part is the number of bytes the part holds, as the multipart reader sets
it. -/
def Request.WellFormed (r : Request) : Prop :=
  ∀ p b, r.part = some p → p.1.ReadAll = .ok b → p.2.Size = (b.length : Int)

/-! ## Sample inputs -/

/-- An operating system on which create, write and close succeed. -/
def okOS : OS := { createFails := fun _ => false, writeFails := none, closeFails := false }

/-- A file system with no file. -/
def emptyFS : FS := fun _ => none

/-- The header the multipart reader builds for a file part: the name is
the `filepath.Base` of the file name the client sent (`Part.FileName`). -/
def FileHeader.ofPart (filename : String) (size : Int) (payload : Bytes) : FileHeader :=
  { Filename := filepath.Base filename, Size := size, Open := .ok { ReadAll := .ok payload } }

/-- A form with one `uploadFile` part for which the client sent this file
name, with this size and payload.  A part with an empty file name is a
plain form value, not a file. -/
def uploadForm (name : String) (size : Int) (payload : Bytes) : Form :=
  { File := fun k =>
      if k = "uploadFile" ∧ name ≠ "" then [FileHeader.ofPart name size payload] else [] }

/-- A POST whose body parses to the form with that one part. -/
def uploadRequest (name : String) (size : Int) (payload : Bytes) : Request :=
  { Method := "POST", ParseMultipartForm := fun _ => .ok (uploadForm name size payload) }

/-- A POST whose form parses and has no file part. -/
def noFileRequest : Request :=
  { Method := "POST", ParseMultipartForm := fun _ => .ok { File := fun _ => [] } }

/-- A POST whose body is not a multipart form. -/
def badFormRequest : Request :=
  { Method := "POST",
    ParseMultipartForm := fun _ => .error "request Content-Type isn't multipart/form-data" }

/-- A GET of the upload form. -/
def getRequest : Request :=
  { Method := "GET",
    ParseMultipartForm := fun _ => .error "request Content-Type isn't multipart/form-data" }

/-- The ten bytes of `helloworld`. -/
def helloBytes : Bytes := [104, 101, 108, 108, 111, 119, 111, 114, 108, 100]

/-- A host with only loopback interfaces: `127.0.0.1/8` and `::1/128`. -/
def loopbackOnly : List Addr :=
  [.IPNet [127, 0, 0, 1] [255, 0, 0, 0],
   .IPNet IPv6loopback [255, 255, 255, 255, 255, 255, 255, 255, 255, 255, 255, 255, 255, 255,
     255, 255]]

/-- The link-local IPv6 address `fe80::1/64`. -/
def linkLocal6 : Addr :=
  .IPNet [0xfe, 0x80, 0, 0, 0, 0, 0, 0, 0, 0, 0, 0, 0, 0, 0, 1]
    [255, 255, 255, 255, 255, 255, 255, 255, 0, 0, 0, 0, 0, 0, 0, 0]

/-- The page before the `action` attribute of the form. -/
def formOpen : String :=
  "\n<!DOCTYPE html>\n<html>\n\t<head>\n\t\t<title>fileserer - upload</title>\n\t</head>\n\t<body>\n\t\t<form enctype=\"multipart/form-data\" "

/-- The page between the `action` attribute and the file input. -/
def formMiddle : String := " method=\"post\">\n\t\t\t"

/-- The page after the file input. -/
def formClose : String :=
  "\n\t\t\t<input type=\"submit\" value=\"upload\" />\n\t\t</form>\n\t</body>\n</html>\n"

/-! ## The routes of `main` and the static file server -/

/-- The function `strings.HasSuffix`. -/
def HasSuffix (s suffix : String) : Bool := suffix.data.isSuffixOf s.data

/-- The function `cleanPath` of `net/http`: the cleaned form of a URL path,
a trailing slash kept. -/
def cleanPath (p : String) : String :=
  if p = "" then "/"
  else
    let p1 := if p.data.head? == some '/' then p else "/" ++ p
    let np := path.Clean p1
    if HasSuffix p1 "/" ∧ np ≠ "/" then np ++ "/" else np

/-- What a request to the server is answered with, as far as the claims
need it: the outcome of the upload handler, a redirect, the bytes of a
file with status 200, no regular file at the path, or not found. -/
inductive Response where
  | handled (out : Outcome)
  | moved (location : String)
  | file (body : Bytes)
  | noFile
  | notFound

/-- The handler `http.FileServer(http.Dir(rootPath))` on a request without
range or conditional headers.  A path ending in `/index.html` is redirected
to `./`; otherwise `http.Dir.Open` opens
`filepath.Join(dir, path.Clean("/" + name))` for the cleaned URL path
`name`, and the file's bytes are sent unless the method is `HEAD`.  The
file system of the model holds regular files only. -/
def http.FileServer (rootPath : String) (fs : FS) (method : String) (urlPath : String) :
    Response :=
  let upath := if urlPath.data.head? == some '/' then urlPath else "/" ++ urlPath
  if HasSuffix upath "/index.html" then .moved "./"
  else
    let name := path.Clean upath
    let dir := if rootPath = "" then "." else rootPath
    let fullName := filepath.Join dir (path.Clean ("/" ++ name))
    match fs fullName with
    | none => .noFile
    | some b =>
      if HasSuffix upath "/" then .moved ("../" ++ filepath.Base upath)
      else if method = "HEAD" then .file []
      else .file b

/-- The handler `http.StripPrefix("/", h)`: the prefix is removed from the
URL path, and a path without it is not found. -/
def http.StripPrefix (h : String → Response) (urlPath : String) : Response :=
  match urlPath.data with
  | '/' :: rest => h (String.mk rest)
  | _ => .notFound

/-- The server `main` starts, on one request: the default mux redirects a
URL path that is not clean, routes `/upload` to the upload handler and
every other path to the static file server under `rootPath`. -/
def main.serve (port : Int) (rootPath : String) (localIps : List String) (o : OS)
    (r : Request) (urlPath : String) (fs : FS) : Response :=
  if cleanPath urlPath ≠ urlPath then .moved (cleanPath urlPath)
  else if urlPath = "/upload" then
    .handled (uploadFileHandler.serve port rootPath localIps o r (World.start fs))
  else http.StripPrefix (http.FileServer rootPath fs r.Method) urlPath

/-- The file named `e` directly inside the cleaned directory `root`. -/
def underRoot (root e : String) : String :=
  if root = "." then e
  else if root = "/" then "/" ++ e
  else root ++ "/" ++ e

/-- The characters of a dotted IPv4 address followed by a colon and a
decimal port. -/
def urlSafeChars : List Char :=
  ['0', '1', '2', '3', '4', '5', '6', '7', '8', '9', '.', ':', '-']

/-! ## Address discovery -/

theorem foldl_step_eq (addrs : List Addr) (acc : List String) :
    addrs.foldl GetLocalIPAddrs.step acc = acc ++ list_local_ipv4_addresses addrs := by
  induction addrs generalizing acc with
  | nil => simp [list_local_ipv4_addresses]
  | cons a rest ih =>
    rw [List.foldl_cons, ih]
    cases a with
    | IPNet ip mask =>
      by_cases h1 : IP.IsLoopback ip = true
      · simp [GetLocalIPAddrs.step, list_local_ipv4_addresses, qualifies, h1]
      · by_cases h2 : (IP.To4 ip).isSome = true
        · simp [GetLocalIPAddrs.step, list_local_ipv4_addresses, qualifies, h1, h2, addrText]
        · simp [GetLocalIPAddrs.step, list_local_ipv4_addresses, qualifies, h1, h2]
    | IPAddr ip zone => simp [GetLocalIPAddrs.step, list_local_ipv4_addresses, qualifies]
    | other n t => simp [GetLocalIPAddrs.step, list_local_ipv4_addresses, qualifies]

theorem GetLocalIPAddrs_ok (addrs : List Addr) :
    GetLocalIPAddrs addrs none = .ok (list_local_ipv4_addresses addrs, none) := by
  simp [GetLocalIPAddrs, dropError, foldl_step_eq]

theorem digit_safe (k : Nat) (h : k < 10) : Char.ofNat (48 + k) ∈ urlSafeChars := by
  interval_cases k <;> decide

theorem uitoaCore_safe (fuel n : Nat) (acc : List Char)
    (hacc : ∀ c ∈ acc, c ∈ urlSafeChars) :
    ∀ c ∈ uitoaCore fuel n acc, c ∈ urlSafeChars := by
  induction fuel generalizing n acc with
  | zero => simpa [uitoaCore] using hacc
  | succ k ih =>
    have hd : Char.ofNat (48 + n % 10) ∈ urlSafeChars := digit_safe _ (Nat.mod_lt _ (by decide))
    have hacc2 : ∀ c ∈ Char.ofNat (48 + n % 10) :: acc, c ∈ urlSafeChars := by
      intro c hc
      rcases List.mem_cons.mp hc with rfl | hc
      · exact hd
      · exact hacc c hc
    unfold uitoaCore
    by_cases h0 : n / 10 = 0
    · simpa [h0] using hacc2
    · simpa [h0] using ih (n / 10) _ hacc2

theorem uitoa_safe (n : Nat) : ∀ c ∈ uitoa n, c ∈ urlSafeChars :=
  uitoaCore_safe (n + 1) n [] (by simp)

theorem Itoa_safe (i : Int) : ∀ c ∈ (Itoa i).data, c ∈ urlSafeChars := by
  cases i with
  | ofNat n => simpa [Itoa] using uitoa_safe n
  | negSucc n =>
    intro c hc
    simp only [Itoa, List.mem_cons] at hc
    rcases hc with rfl | hc
    · decide
    · exact uitoa_safe _ c hc

theorem dotted_safe (bs : List Nat) : ∀ c ∈ dotted bs, c ∈ urlSafeChars := by
  induction bs with
  | nil => simp [dotted]
  | cons b rest ih =>
    cases rest with
    | nil => simpa [dotted] using uitoa_safe b
    | cons b2 rest2 =>
      intro c hc
      simp only [dotted, List.mem_append, List.mem_cons] at hc
      rcases hc with hc | rfl | hc
      · exact uitoa_safe b c hc
      · decide
      · exact ih c (by simpa [dotted] using hc)

theorem IP.String_of_To4 (ip p4 : IP) (h : IP.To4 ip = some p4) :
    IP.String ip = String.mk (dotted p4) := by
  have hlen : ip.length = IPv4len ∨ ip.length = IPv6len := by
    unfold IP.To4 at h
    by_cases h4 : ip.length = IPv4len
    · exact Or.inl h4
    · rw [if_neg h4] at h
      by_cases h6 : ip.length = IPv6len ∧ (ip.take 10).all (fun b => b == 0)
          ∧ ip.getD 10 0 = 0xff ∧ ip.getD 11 0 = 0xff
      · exact Or.inr h6.1
      · rw [if_neg h6] at h
        cases h
  have h0 : ip.length ≠ 0 := by
    rcases hlen with h | h <;> rw [h] <;> decide
  have h1 : ¬ (ip.length ≠ IPv4len ∧ ip.length ≠ IPv6len) := by
    rintro ⟨a, b⟩
    rcases hlen with h | h
    · exact a h
    · exact b h
  unfold IP.String
  rw [if_neg h0, if_neg h1, h]

theorem discovered_safe (addrs : List Addr) :
    ∀ s ∈ list_local_ipv4_addresses addrs, ∀ c ∈ s.data, c ∈ urlSafeChars := by
  intro s hs c hc
  simp only [list_local_ipv4_addresses, List.mem_map, List.mem_filter] at hs
  obtain ⟨a, ⟨_, hq⟩, rfl⟩ := hs
  cases a with
  | IPNet ip mask =>
    simp only [qualifies, Bool.and_eq_true] at hq
    obtain ⟨p4, hp4⟩ := Option.isSome_iff_exists.mp hq.2
    simp only [addrText, IP.String_of_To4 ip p4 hp4] at hc
    exact dotted_safe p4 c hc
  | IPAddr ip zone => simp [qualifies] at hq
  | other n t => simp [qualifies] at hq

/-! ## The escapers on an address and port -/

theorem urlNormalizer_cons_safe (c : Char) (rest : List Char) (h : c ∈ urlSafeChars) :
    urlNormalizer (c :: rest) = c :: urlNormalizer rest := by
  simp only [urlSafeChars, List.mem_cons, List.mem_singleton, List.not_mem_nil, or_false] at h
  rcases h with rfl | rfl | rfl | rfl | rfl | rfl | rfl | rfl | rfl | rfl | rfl | rfl | rfl <;>
    simp [urlNormalizer, urlReserved, urlUnreserved]

theorem urlNormalizer_safe (l : List Char) (h : ∀ c ∈ l, c ∈ urlSafeChars) :
    urlNormalizer l = l := by
  induction l with
  | nil => simp [urlNormalizer]
  | cons c rest ih =>
    rw [urlNormalizer_cons_safe c rest (h c (by simp)), ih (fun d hd => h d (by simp [hd]))]

theorem attrEscapeChar_safe (c : Char) (h : c ∈ urlSafeChars) : attrEscapeChar c = [c] := by
  simp only [urlSafeChars, List.mem_cons, List.mem_singleton, List.not_mem_nil, or_false] at h
  rcases h with rfl | rfl | rfl | rfl | rfl | rfl | rfl | rfl | rfl | rfl | rfl | rfl | rfl <;>
    decide

theorem attrEscaper_safe (l : List Char) (h : ∀ c ∈ l, c ∈ urlSafeChars) :
    attrEscaper l = l := by
  induction l with
  | nil => simp [attrEscaper]
  | cons c rest ih =>
    have ih2 := ih (fun d hd => h d (by simp [hd]))
    simp only [attrEscaper, List.flatMap_cons] at ih2 ⊢
    rw [attrEscapeChar_safe c (h c (by simp)), ih2]
    rfl

theorem parse_tpl : Template.Parse tpl = [.text tplBefore, .dot, .text tplAfter] := by
  decide

theorem execute_tpl_safe (data : String) (h : ∀ c ∈ data.data, c ∈ urlSafeChars) :
    Template.Execute (Template.Parse tpl) ResponseWriter.fresh data =
      { status := some 200, writes := [tplBefore, data, tplAfter] } := by
  simp [parse_tpl, Template.Execute, Template.execNode, urlNormalizer_safe _ h, attrEscaper_safe _ h,
    ResponseWriter.Write, ResponseWriter.WriteHeader, ResponseWriter.fresh, StatusOK]

/-! ## Decimal form of the port -/

theorem digitChar_eq (k : Nat) (h : k < 10) : Nat.digitChar k = Char.ofNat (48 + k) := by
  interval_cases k <;> rfl

theorem uitoaCore_eq (fuel n : Nat) (acc : List Char) :
    uitoaCore fuel n acc = Nat.toDigitsCore 10 fuel n acc := by
  induction fuel generalizing n acc with
  | zero => rfl
  | succ k ih =>
    simp only [uitoaCore, Nat.toDigitsCore, digitChar_eq (n % 10) (Nat.mod_lt _ (by decide)), ih]

theorem Itoa_eq_toString (i : Int) : Itoa i = toString i := by
  cases i with
  | ofNat n =>
    show String.mk (uitoaCore (n + 1) n []) = _
    rw [uitoaCore_eq]
    rfl
  | negSucc n =>
    show String.mk ('-' :: uitoaCore (n + 1 + 1) (n + 1) []) = _
    rw [uitoaCore_eq]
    rfl

/-! ## Paths -/

theorem splitSlash_ne_nil (l : List Char) : splitSlash l ≠ [] := by
  induction l with
  | nil => simp [splitSlash]
  | cons c cs ih =>
    unfold splitSlash
    by_cases hc : c = '/'
    · simp [hc]
    · simp only [hc, if_false]
      cases h : splitSlash cs with
      | nil => simp
      | cons x xs => simp

theorem splitSlash_append_slash (a b : List Char) :
    splitSlash (a ++ '/' :: b) = splitSlash a ++ splitSlash b := by
  induction a with
  | nil => simp [splitSlash]
  | cons c cs ih =>
    by_cases hc : c = '/'
    · simp [splitSlash, hc, ih]
    · cases h : splitSlash cs with
      | nil => exact absurd h (splitSlash_ne_nil cs)
      | cons x xs =>
        have ih2 : splitSlash (cs ++ '/' :: b) = x :: (xs ++ splitSlash b) := by
          rw [ih, h]
          rfl
        show splitSlash (c :: (cs ++ '/' :: b)) = splitSlash (c :: cs) ++ splitSlash b
        simp only [splitSlash, hc, if_false, ih2, h, List.cons_append]

theorem splitSlash_plain (e : List Char) (h : '/' ∉ e) : splitSlash e = [e] := by
  induction e with
  | nil => simp [splitSlash]
  | cons c cs ih =>
    have hc : c ≠ '/' := fun hc => h (by simp [hc])
    have hcs : '/' ∉ cs := fun hcs => h (by simp [hcs])
    simp [splitSlash, hc, ih hcs]

theorem splitSlash_no_slash (l : List Char) : ∀ x ∈ splitSlash l, '/' ∉ x := by
  induction l with
  | nil => simp [splitSlash]
  | cons c cs ih =>
    by_cases hc : c = '/'
    · intro x hx
      simp only [splitSlash, hc, if_true, List.mem_cons] at hx
      rcases hx with rfl | hx
      · simp
      · exact ih x hx
    · cases h : splitSlash cs with
      | nil => exact absurd h (splitSlash_ne_nil cs)
      | cons y ys =>
        intro x hx
        simp only [splitSlash, hc, if_false, h, List.mem_cons] at hx
        rw [h] at ih
        rcases hx with rfl | hx
        · intro hm
          rcases List.mem_cons.mp hm with h1 | h1
          · exact hc h1.symm
          · exact ih y (by simp) h1
        · exact ih x (by simp [hx])

theorem step_good (rooted : Bool) (out : List (List Char)) (elem : List Char)
    (hel : '/' ∉ elem) (h : ∀ x ∈ out, x ≠ [] ∧ x ≠ ['.'] ∧ '/' ∉ x) :
    ∀ x ∈ Clean.step rooted out elem, x ≠ [] ∧ x ≠ ['.'] ∧ '/' ∉ x := by
  unfold Clean.step
  by_cases h1 : elem = [] ∨ elem = ['.']
  · simpa [h1] using h
  · rw [if_neg h1]
    by_cases h2 : elem = ['.', '.']
    · rw [if_pos h2]
      have hdd : ∀ x ∈ [elem], x ≠ [] ∧ x ≠ ['.'] ∧ '/' ∉ x := by
        intro x hx
        rw [List.mem_singleton] at hx
        subst hx
        exact ⟨fun h0 => h1 (Or.inl h0), fun h0 => h1 (Or.inr h0), hel⟩
      cases out with
      | nil =>
        cases rooted
        · simpa using hdd
        · simp
      | cons top below =>
        by_cases h3 : top = ['.', '.']
        · cases rooted
          · intro x hx
            simp only [h3, if_true, Bool.false_eq_true, if_false, List.mem_cons] at hx
            rcases hx with rfl | hx
            · exact hdd _ (by simp)
            · exact h x (by
                rcases hx with rfl | hx
                · simp [h3]
                · simp [hx])
          · simpa [h3] using h
        · intro x hx
          simp only [h3, if_false] at hx
          exact h x (by simp [hx])
    · rw [if_neg h2]
      intro x hx
      rcases List.mem_cons.mp hx with rfl | hx
      · exact ⟨fun h0 => h1 (Or.inl h0), fun h0 => h1 (Or.inr h0), hel⟩
      · exact h x hx

theorem foldl_good (rooted : Bool) (l : List (List Char)) (out : List (List Char))
    (hl : ∀ x ∈ l, '/' ∉ x) (h : ∀ x ∈ out, x ≠ [] ∧ x ≠ ['.'] ∧ '/' ∉ x) :
    ∀ x ∈ l.foldl (Clean.step rooted) out, x ≠ [] ∧ x ≠ ['.'] ∧ '/' ∉ x := by
  induction l generalizing out with
  | nil => simpa using h
  | cons e rest ih =>
    rw [List.foldl_cons]
    exact ih _ (fun x hx => hl x (by simp [hx]))
      (step_good rooted out e (hl e (by simp)) h)

theorem step_plain (rooted : Bool) (out : List (List Char)) (e : List Char)
    (h1 : e ≠ []) (h2 : e ≠ ['.']) (h3 : e ≠ ['.', '.']) :
    Clean.step rooted out e = e :: out := by
  simp [Clean.step, h1, h2, h3]

theorem joinSlash_snoc (xs : List (List Char)) (e : List Char) :
    joinSlash (xs ++ [e]) = if xs = [] then e else joinSlash xs ++ '/' :: e := by
  induction xs with
  | nil => simp [joinSlash]
  | cons x rest ih =>
    cases rest with
    | nil => simp [joinSlash]
    | cons y ys =>
      have ih2 : joinSlash (y :: ys ++ [e]) = joinSlash (y :: ys) ++ '/' :: e := by
        simpa using ih
      show joinSlash (x :: (y :: ys ++ [e])) = _
      simp only [List.cons_append] at ih2 ⊢
      simp [joinSlash, ih2]

theorem joinSlash_good (xs : List (List Char)) (hne : xs ≠ [])
    (h : ∀ x ∈ xs, x ≠ [] ∧ x ≠ ['.'] ∧ '/' ∉ x) :
    joinSlash xs ≠ [] ∧ joinSlash xs ≠ ['.'] ∧ joinSlash xs ≠ ['/'] := by
  cases xs with
  | nil => exact absurd rfl hne
  | cons x rest =>
    obtain ⟨hx1, hx2, hx3⟩ := h x (by simp)
    cases rest with
    | nil =>
      refine ⟨by simpa [joinSlash] using hx1, by simpa [joinSlash] using hx2, ?_⟩
      intro h0
      simp only [joinSlash] at h0
      exact hx3 (by simp [h0])
    | cons y ys =>
      cases x with
      | nil => exact absurd rfl hx1
      | cons c cs => simp [joinSlash]

theorem mk_ne_empty (l : List Char) (h : l ≠ []) : String.mk l ≠ "" := by
  intro h0
  exact h (congrArg String.data h0)

theorem clean_snoc (a e : List Char) (he : '/' ∉ e) (h1 : e ≠ []) (h2 : e ≠ ['.'])
    (h3 : e ≠ ['.', '.']) :
    filepath.Clean (String.mk (a ++ '/' :: e)) =
      String.mk ((if (a ++ '/' :: e).head? == some '/' then ['/'] else []) ++
        joinSlash (((splitSlash a).foldl
          (Clean.step ((a ++ '/' :: e).head? == some '/')) []).reverse ++ [e])) := by
  have hne : String.mk (a ++ '/' :: e) ≠ "" := mk_ne_empty _ (by simp)
  have hbody : ∀ xs : List (List Char), joinSlash (xs ++ [e]) ≠ [] := by
    intro xs
    rw [joinSlash_snoc]
    by_cases hx : xs = []
    · simpa [hx] using h1
    · simp [hx]
  unfold filepath.Clean
  rw [if_neg hne]
  simp only [splitSlash_append_slash, splitSlash_plain e he, List.foldl_append, List.foldl_cons,
    List.foldl_nil, step_plain _ _ e h1 h2 h3, List.reverse_cons]
  generalize ((a ++ '/' :: e).head? == some '/') = rooted
  cases rooted
  · simp [hbody]
  · simp

theorem data_ne_of_ne (e : String) (l : List Char) (h : e ≠ String.mk l) : e.data ≠ l :=
  fun h0 => h (String.ext h0)

theorem clean_plain (e : String) (hs : '/' ∉ e.data) (h1 : e ≠ "") (h2 : e ≠ ".")
    (h3 : e ≠ "..") : filepath.Clean e = e := by
  have d1 : e.data ≠ [] := data_ne_of_ne e [] h1
  have d2 : e.data ≠ ['.'] := data_ne_of_ne e ['.'] h2
  have d3 : e.data ≠ ['.', '.'] := data_ne_of_ne e ['.', '.'] h3
  have hh : (e.data.head? == some '/') = false := by
    cases hd : e.data with
    | nil => exact absurd hd d1
    | cons c cs =>
      have hc : c ≠ '/' := fun h0 => hs (by rw [hd, h0]; simp)
      simp [hc]
  unfold filepath.Clean
  rw [if_neg h1]
  simp only [hh, splitSlash_plain e.data hs, List.foldl_cons, List.foldl_nil,
    step_plain _ _ e.data d1 d2 d3, List.reverse_cons, List.reverse_nil, List.nil_append,
    joinSlash, Bool.false_eq_true, if_false, d1]

theorem clean_slash_plain (e : String) (hs : '/' ∉ e.data) (h1 : e ≠ "") (h2 : e ≠ ".")
    (h3 : e ≠ "..") : filepath.Clean ("/" ++ e) = "/" ++ e := by
  have d1 : e.data ≠ [] := data_ne_of_ne e [] h1
  have d2 : e.data ≠ ['.'] := data_ne_of_ne e ['.'] h2
  have d3 : e.data ≠ ['.', '.'] := data_ne_of_ne e ['.', '.'] h3
  have hstr : "/" ++ e = String.mk ([] ++ '/' :: e.data) := String.ext (by simp)
  rw [hstr, clean_snoc [] e.data hs d1 d2 d3]
  simp [splitSlash, Clean.step, joinSlash]

theorem clean_slash_slash_plain (e : String) (hs : '/' ∉ e.data) (h1 : e ≠ "") (h2 : e ≠ ".")
    (h3 : e ≠ "..") : filepath.Clean ("/" ++ ("/" ++ e)) = "/" ++ e := by
  have d1 : e.data ≠ [] := data_ne_of_ne e [] h1
  have d2 : e.data ≠ ['.'] := data_ne_of_ne e ['.'] h2
  have d3 : e.data ≠ ['.', '.'] := data_ne_of_ne e ['.', '.'] h3
  have hstr : "/" ++ ("/" ++ e) = String.mk (['/'] ++ '/' :: e.data) := String.ext (by simp)
  have hstr2 : "/" ++ e = String.mk ('/' :: e.data) := String.ext (by simp)
  rw [hstr, clean_snoc ['/'] e.data hs d1 d2 d3, hstr2]
  simp [splitSlash, Clean.step, joinSlash]

theorem join_slash_plain (dir e : String) (hd : dir ≠ "") (hs : '/' ∉ e.data) (h1 : e ≠ "")
    (h2 : e ≠ ".") (h3 : e ≠ "..") :
    filepath.Join dir ("/" ++ e) = filepath.Join dir e := by
  have d1 : e.data ≠ [] := data_ne_of_ne e [] h1
  have d2 : e.data ≠ ['.'] := data_ne_of_ne e ['.'] h2
  have d3 : e.data ≠ ['.', '.'] := data_ne_of_ne e ['.', '.'] h3
  have hdd : dir.data ≠ [] := data_ne_of_ne dir [] hd
  have hstr : dir ++ "/" ++ ("/" ++ e) = String.mk ((dir.data ++ ['/']) ++ '/' :: e.data) :=
    String.ext (by simp)
  have hstr2 : dir ++ "/" ++ e = String.mk (dir.data ++ '/' :: e.data) := String.ext (by simp)
  have hhead : ((dir.data ++ ['/']) ++ '/' :: e.data).head? = (dir.data ++ '/' :: e.data).head? := by
    cases hx : dir.data with
    | nil => exact absurd hx hdd
    | cons c cs => simp
  have hsplit : splitSlash (dir.data ++ ['/']) = splitSlash dir.data ++ [[]] := by
    rw [splitSlash_append_slash]
    simp [splitSlash]
  unfold filepath.Join
  rw [if_pos hd, if_pos hd, hstr, hstr2, clean_snoc _ e.data hs d1 d2 d3,
    clean_snoc _ e.data hs d1 d2 d3, hhead, hsplit]
  simp [List.foldl_append, Clean.step]

theorem join_plain (root e : String) (hs : '/' ∉ e.data) (h1 : e ≠ "") (h2 : e ≠ ".")
    (h3 : e ≠ "..") :
    filepath.Join root e = underRoot (filepath.Clean root) e := by
  have d1 : e.data ≠ [] := data_ne_of_ne e [] h1
  have d2 : e.data ≠ ['.'] := data_ne_of_ne e ['.'] h2
  have d3 : e.data ≠ ['.', '.'] := data_ne_of_ne e ['.', '.'] h3
  by_cases hroot : root = ""
  · subst hroot
    have hc : filepath.Clean "" = "." := by decide
    simp only [filepath.Join, ne_eq, not_true_eq_false, if_false, h1, not_false_eq_true, if_true,
      clean_plain e hs h1 h2 h3, hc, underRoot]
  · have hdd : root.data ≠ [] := data_ne_of_ne root [] hroot
    have hstr : root ++ "/" ++ e = String.mk (root.data ++ '/' :: e.data) := String.ext (by simp)
    have hhead : (root.data ++ '/' :: e.data).head? = root.data.head? := by
      cases hx : root.data with
      | nil => exact absurd hx hdd
      | cons c cs => simp
    have hgood := foldl_good (root.data.head? == some '/') (splitSlash root.data) []
      (splitSlash_no_slash root.data) (by simp)
    unfold filepath.Join
    rw [if_pos hroot, hstr, clean_snoc _ e.data hs d1 d2 d3, hhead]
    unfold filepath.Clean
    rw [if_neg hroot]
    simp only []
    generalize hout : (splitSlash root.data).foldl (Clean.step (root.data.head? == some '/')) []
      = out at hgood ⊢
    have hgood2 : ∀ x ∈ out.reverse, x ≠ [] ∧ x ≠ ['.'] ∧ '/' ∉ x :=
      fun x hx => hgood x (List.mem_reverse.mp hx)
    rw [joinSlash_snoc]
    by_cases hnil : out.reverse = []
    · rw [if_pos hnil, hnil]
      cases root.data.head? == some '/'
      · simp [joinSlash, underRoot]
      · have hsl : String.mk ('/' :: joinSlash []) = "/" := by decide
        have hne : ("/" : String) ≠ "." := by decide
        simp only [if_true, hsl, underRoot, hne, if_false]
        exact String.ext (by simp)
    · rw [if_neg hnil]
      obtain ⟨j1, j2, j3⟩ := joinSlash_good out.reverse hnil hgood2
      cases root.data.head? == some '/'
      · have n1 : String.mk (joinSlash out.reverse) ≠ "." := fun h0 =>
          j2 (congrArg String.data h0)
        have n2 : String.mk (joinSlash out.reverse) ≠ "/" := fun h0 =>
          j3 (congrArg String.data h0)
        simp only [Bool.false_eq_true, if_false, j1, underRoot, n1, n2, List.nil_append]
        exact String.ext (by simp)
      · have n1 : String.mk ('/' :: joinSlash out.reverse) ≠ "." := fun h0 => by
          have := congrArg String.data h0
          simp at this
        have n2 : String.mk ('/' :: joinSlash out.reverse) ≠ "/" := fun h0 => by
          have := congrArg String.data h0
          simp at this
          exact j1 this
        simp only [if_true, underRoot, n1, n2, if_false]
        exact String.ext (by simp)

theorem base_cases (p : String) :
    filepath.Base p = "." ∨ filepath.Base p = "/"
      ∨ ('/' ∉ (filepath.Base p).data ∧ filepath.Base p ≠ "") := by
  unfold filepath.Base
  by_cases hp : p = ""
  · simp [hp]
  · rw [if_neg hp]
    simp only []
    by_cases hl : (List.takeWhile (fun c => c != '/')
        (List.dropWhile (fun c => c == '/') p.data.reverse)).reverse = []
    · rw [if_pos hl]
      exact Or.inr (Or.inl rfl)
    · rw [if_neg hl]
      refine Or.inr (Or.inr ⟨?_, mk_ne_empty _ hl⟩)
      intro hmem
      have h1 := List.mem_reverse.mp hmem
      have h2 := List.mem_takeWhile_imp h1
      simp at h2

/-! ## The static file server on a plain file name -/

theorem suffix_slash_plain (t e : List Char) (he : '/' ∉ e)
    (h : ('/' :: t) <:+ ('/' :: e)) : t = e := by
  obtain ⟨pre, hpre⟩ := h
  cases pre with
  | nil =>
    simp only [List.nil_append, List.cons.injEq, true_and] at hpre
    exact hpre
  | cons c pre2 =>
    simp only [List.cons_append, List.cons.injEq] at hpre
    exact absurd (by rw [← hpre.2]; simp) he

theorem hasSuffix_slash_plain (e : String) (t : List Char) (hs : '/' ∉ e.data)
    (hne : e.data ≠ t) : HasSuffix ("/" ++ e) (String.mk ('/' :: t)) = false := by
  cases h : HasSuffix ("/" ++ e) (String.mk ('/' :: t)) with
  | false => rfl
  | true =>
    have h2 : ('/' :: t) <:+ ('/' :: e.data) := by
      have h3 := List.isSuffixOf_iff_suffix.mp h
      simpa using h3
    exact absurd (suffix_slash_plain t e.data hs h2).symm hne

theorem main_serve_plain (port : Int) (rootPath : String) (localIps : List String) (o : OS)
    (g : Request) (e : String) (fs : FS) (payload : Bytes)
    (hs : '/' ∉ e.data) (h1 : e ≠ "") (h2 : e ≠ ".") (h3 : e ≠ "..")
    (hu : e ≠ "upload") (hi : e ≠ "index.html") (hg : g.Method ≠ "HEAD")
    (hfile : fs (filepath.Join rootPath e) = some payload) :
    main.serve port rootPath localIps o g ("/" ++ e) fs = .file payload := by
  have d1 : e.data ≠ [] := data_ne_of_ne e [] h1
  have hsl : HasSuffix ("/" ++ e) "/" = false := hasSuffix_slash_plain e [] hs d1
  have hidx : HasSuffix ("/" ++ e) "/index.html" = false :=
    hasSuffix_slash_plain e "index.html".data hs (data_ne_of_ne e _ hi)
  have hhead : (("/" ++ e).data.head? == some '/') = true := by simp
  have hne : "/" ++ e ≠ "" := fun h0 => by
    have := congrArg String.data h0
    simp at this
  have hclean : path.Clean ("/" ++ e) = "/" ++ e := clean_slash_plain e hs h1 h2 h3
  have hcp : cleanPath ("/" ++ e) = "/" ++ e := by
    unfold cleanPath
    rw [if_neg hne]
    simp only [hhead, if_true, hclean, hsl, Bool.false_eq_true, false_and, if_false]
  have hup : "/" ++ e ≠ "/upload" := fun h0 => by
    have := congrArg String.data h0
    simp only [String.data_append] at this
    exact hu (String.ext (List.cons.inj this).2)
  have hdata : ("/" ++ e).data = '/' :: e.data := by simp
  have hehead : (e.data.head? == some '/') = false := by
    cases hd : e.data with
    | nil => exact absurd hd d1
    | cons c cs =>
      have hc : c ≠ '/' := fun h0 => hs (by rw [hd, h0]; simp)
      simp [hc]
  have hjoin : filepath.Join (if rootPath = "" then "." else rootPath) ("/" ++ e)
      = filepath.Join rootPath e := by
    by_cases hr : rootPath = ""
    · have hd : ("." : String) ≠ "" := by decide
      have hc1 : filepath.Clean "." = "." := by decide
      have hc2 : filepath.Clean "" = "." := by decide
      rw [if_pos hr, join_slash_plain "." e hd hs h1 h2 h3, join_plain "." e hs h1 h2 h3, hr,
        join_plain "" e hs h1 h2 h3, hc1, hc2]
    · rw [if_neg hr, join_slash_plain rootPath e hr hs h1 h2 h3]
  unfold main.serve
  rw [hcp]
  simp only [ne_eq, not_true_eq_false, if_false, hup, http.StripPrefix, hdata]
  show http.FileServer rootPath fs g.Method e = _
  unfold http.FileServer
  simp only [hehead, Bool.false_eq_true, if_false, hidx, hclean,
    show path.Clean ("/" ++ ("/" ++ e)) = "/" ++ e from clean_slash_slash_plain e hs h1 h2 h3,
    hjoin, hfile, hsl, hg]

/-! ## The file system -/

theorem FS.set_apply (fs : FS) (name : String) (b : Bytes) (p : String) :
    FS.set fs name b p = if p = name then some b else fs p := rfl

theorem FS.set_same (fs : FS) (name : String) (b : Bytes) :
    FS.set fs name b name = some b := by
  simp [FS.set_apply]

theorem FS.set_other (fs : FS) (name : String) (b : Bytes) (p : String) (h : p ≠ name) :
    FS.set fs name b p = fs p := by
  simp [FS.set_apply, h]

theorem FS.set_set (fs : FS) (name : String) (a b : Bytes) :
    (fs.set name a).set name b = fs.set name b := by
  funext p
  by_cases h : p = name <;> simp [FS.set_apply, h]

/-! ## The handler, path by path -/

theorem serve_get_cons (port : Int) (rootPath : String) (ip0 : String) (ips : List String)
    (o : OS) (r : Request) (s : World) (hm : r.Method = "GET") :
    uploadFileHandler.serve port rootPath (ip0 :: ips) o r s =
      .returned { s with w := Template.Execute (Template.Parse tpl) s.w
                                (ip0 ++ ":" ++ Itoa port) } := by
  simp [uploadFileHandler.serve, hm]

theorem serve_get_nil (port : Int) (rootPath : String)
    (o : OS) (r : Request) (s : World) (hm : r.Method = "GET") :
    uploadFileHandler.serve port rootPath [] o r s =
      .panicked "runtime error: index out of range [0] with length 0" s := by
  simp [uploadFileHandler.serve, hm]

theorem serve_parse_error (port : Int) (rootPath : String) (ips : List String)
    (o : OS) (r : Request) (s : World) (e : String) (hm : r.Method ≠ "GET")
    (hp : r.ParseMultipartForm maxUploadSize = .error e) :
    uploadFileHandler.serve port rootPath ips o r s =
      .returned { w := renderError s.w "CANT_PARSE_FORM" StatusInternalServerError,
                  fs := s.fs,
                  calls := s.calls ++ [.ParseMultipartForm maxUploadSize] } := by
  simp [uploadFileHandler.serve, hm, hp, World.call]

theorem serve_formfile_error (port : Int) (rootPath : String) (ips : List String)
    (o : OS) (r : Request) (s : World) (form : Form) (e : String) (hm : r.Method ≠ "GET")
    (hp : r.ParseMultipartForm maxUploadSize = .ok form)
    (hf : FormFile form "uploadFile" = .error e) :
    uploadFileHandler.serve port rootPath ips o r s =
      .returned { w := renderError s.w "INVALID_FILE" StatusBadRequest,
                  fs := s.fs,
                  calls := s.calls ++ [.ParseMultipartForm maxUploadSize, .FormFile "uploadFile"] } := by
  simp [uploadFileHandler.serve, hm, hp, hf, World.call]

theorem serve_too_big (port : Int) (rootPath : String) (ips : List String)
    (o : OS) (r : Request) (s : World) (form : Form) (file : File) (fh : FileHeader)
    (hm : r.Method ≠ "GET")
    (hp : r.ParseMultipartForm maxUploadSize = .ok form)
    (hf : FormFile form "uploadFile" = .ok (file, fh))
    (hs : fh.Size > maxUploadSize) :
    uploadFileHandler.serve port rootPath ips o r s =
      .returned { w := renderError s.w "FILE_TOO_BIG" StatusBadRequest,
                  fs := s.fs,
                  calls := s.calls ++ [.ParseMultipartForm maxUploadSize, .FormFile "uploadFile"] } := by
  simp [uploadFileHandler.serve, hm, hp, hf, hs, World.call]

theorem serve_read_error (port : Int) (rootPath : String) (ips : List String)
    (o : OS) (r : Request) (s : World) (form : Form) (file : File) (fh : FileHeader)
    (e : String) (hm : r.Method ≠ "GET")
    (hp : r.ParseMultipartForm maxUploadSize = .ok form)
    (hf : FormFile form "uploadFile" = .ok (file, fh))
    (hs : ¬ fh.Size > maxUploadSize)
    (hr : file.ReadAll = .error e) :
    uploadFileHandler.serve port rootPath ips o r s =
      .returned { w := renderError s.w "INVALID_FILE" StatusBadRequest,
                  fs := s.fs,
                  calls := s.calls ++
                    [.ParseMultipartForm maxUploadSize, .FormFile "uploadFile", .ReadAll] } := by
  simp [uploadFileHandler.serve, hm, hp, hf, hs, hr, World.call]

theorem serve_create_error (port : Int) (rootPath : String) (ips : List String)
    (o : OS) (r : Request) (s : World) (form : Form) (file : File) (fh : FileHeader)
    (b : Bytes) (hm : r.Method ≠ "GET")
    (hp : r.ParseMultipartForm maxUploadSize = .ok form)
    (hf : FormFile form "uploadFile" = .ok (file, fh))
    (hs : ¬ fh.Size > maxUploadSize)
    (hr : file.ReadAll = .ok b)
    (hc : o.createFails (filepath.Join rootPath fh.Filename) = true) :
    uploadFileHandler.serve port rootPath ips o r s =
      .returned { w := renderError s.w "CANT_WRITE_FILE" StatusInternalServerError,
                  fs := s.fs,
                  calls := s.calls ++
                    [.ParseMultipartForm maxUploadSize, .FormFile "uploadFile", .ReadAll,
                     .Create (filepath.Join rootPath fh.Filename)] } := by
  simp [uploadFileHandler.serve, hm, hp, hf, hs, hr, hc, World.call, os.Create]

theorem serve_write_error (port : Int) (rootPath : String) (ips : List String)
    (o : OS) (r : Request) (s : World) (form : Form) (file : File) (fh : FileHeader)
    (b : Bytes) (n : Nat) (hm : r.Method ≠ "GET")
    (hp : r.ParseMultipartForm maxUploadSize = .ok form)
    (hf : FormFile form "uploadFile" = .ok (file, fh))
    (hs : ¬ fh.Size > maxUploadSize)
    (hr : file.ReadAll = .ok b)
    (hc : o.createFails (filepath.Join rootPath fh.Filename) = false)
    (hw : o.writeFails = some n) :
    uploadFileHandler.serve port rootPath ips o r s =
      .returned { w := renderError s.w "CANT_WRITE_FILE" StatusInternalServerError,
                  fs := s.fs.set (filepath.Join rootPath fh.Filename) (b.take n),
                  calls := s.calls ++
                    [.ParseMultipartForm maxUploadSize, .FormFile "uploadFile", .ReadAll,
                     .Create (filepath.Join rootPath fh.Filename), .Write b.length] } := by
  simp [uploadFileHandler.serve, hm, hp, hf, hs, hr, hc, hw, World.call, os.Create, File.Write,
    FS.set_same, FS.set_set]

theorem serve_close_error (port : Int) (rootPath : String) (ips : List String)
    (o : OS) (r : Request) (s : World) (form : Form) (file : File) (fh : FileHeader)
    (b : Bytes) (hm : r.Method ≠ "GET")
    (hp : r.ParseMultipartForm maxUploadSize = .ok form)
    (hf : FormFile form "uploadFile" = .ok (file, fh))
    (hs : ¬ fh.Size > maxUploadSize)
    (hr : file.ReadAll = .ok b)
    (hc : o.createFails (filepath.Join rootPath fh.Filename) = false)
    (hw : o.writeFails = none)
    (hcl : o.closeFails = true) :
    uploadFileHandler.serve port rootPath ips o r s =
      .returned { w := renderError s.w "CANT_WRITE_FILE" StatusInternalServerError,
                  fs := s.fs.set (filepath.Join rootPath fh.Filename) b,
                  calls := s.calls ++
                    [.ParseMultipartForm maxUploadSize, .FormFile "uploadFile", .ReadAll,
                     .Create (filepath.Join rootPath fh.Filename), .Write b.length, .Close] } := by
  simp [uploadFileHandler.serve, hm, hp, hf, hs, hr, hc, hw, hcl, World.call, os.Create,
    File.Write, File.Close, FS.set_same, FS.set_set]

theorem serve_success (port : Int) (rootPath : String) (ips : List String)
    (o : OS) (r : Request) (s : World) (form : Form) (file : File) (fh : FileHeader)
    (b : Bytes) (hm : r.Method ≠ "GET")
    (hp : r.ParseMultipartForm maxUploadSize = .ok form)
    (hf : FormFile form "uploadFile" = .ok (file, fh))
    (hs : ¬ fh.Size > maxUploadSize)
    (hr : file.ReadAll = .ok b)
    (hc : o.createFails (filepath.Join rootPath fh.Filename) = false)
    (hw : o.writeFails = none)
    (hcl : o.closeFails = false) :
    uploadFileHandler.serve port rootPath ips o r s =
      .returned { w := s.w.Write (fh.Filename ++ " upload success"),
                  fs := s.fs.set (filepath.Join rootPath fh.Filename) b,
                  calls := s.calls ++
                    [.ParseMultipartForm maxUploadSize, .FormFile "uploadFile", .ReadAll,
                     .Create (filepath.Join rootPath fh.Filename), .Write b.length, .Close] } := by
  simp [uploadFileHandler.serve, hm, hp, hf, hs, hr, hc, hw, hcl, World.call, os.Create,
    File.Write, File.Close, FS.set_same, FS.set_set]

/-! ## The POST pipeline and its earliest failing step -/

theorem serve_post_failure (port : Int) (rootPath : String) (ips : List String)
    (o : OS) (r : Request) (fs : FS) (st : Step) (hm : r.Method ≠ "GET")
    (h : earliestFailure rootPath o r = some st) :
    ∃ s', uploadFileHandler.serve port rootPath ips o r (World.start fs) = .returned s'
      ∧ s'.w = { status := some 400, writes := [st.message] }
      ∧ (∀ c ∈ s'.calls, c.step.index ≤ st.index)
      ∧ (st.index < 4 → s'.fs = fs ∧ ∀ name, Call.Create name ∉ s'.calls) := by
  cases hp : r.ParseMultipartForm maxUploadSize with
  | error e =>
    have hst : st = .parseForm := by
      simpa [earliestFailure, pipeline, Step.fails, Request.form, hp] using h.symm
    subst hst
    refine ⟨_, serve_parse_error port rootPath ips o r _ e hm hp, ?_⟩
    simp [World.start, Step.message, Call.step, Step.index, renderError, ResponseWriter.Write,
              ResponseWriter.WriteHeader, ResponseWriter.fresh, StatusBadRequest]
  | ok form =>
    cases hf : FormFile form "uploadFile" with
    | error e =>
      have hst : st = .extractFile := by
        simpa [earliestFailure, pipeline, Step.fails, Request.form, Request.part, hp, hf]
          using h.symm
      subst hst
      refine ⟨_, serve_formfile_error port rootPath ips o r _ form e hm hp hf, ?_⟩
      simp [World.start, Step.message, Call.step, Step.index, renderError, ResponseWriter.Write,
              ResponseWriter.WriteHeader, ResponseWriter.fresh, StatusBadRequest]
    | ok p =>
      obtain ⟨file, fh⟩ := p
      by_cases hs : fh.Size > maxUploadSize
      · have hs2 : fh.Size > 20971520 := by simpa [maxUploadSize] using hs
        have hst : st = .sizeCheck := by
          simpa [earliestFailure, pipeline, Step.fails, Request.form, Request.part, hp, hf, hs2]
            using h.symm
        subst hst
        refine ⟨_, serve_too_big port rootPath ips o r _ form file fh hm hp hf hs, ?_⟩
        simp [World.start, Step.message, Call.step, Step.index, renderError, ResponseWriter.Write,
              ResponseWriter.WriteHeader, ResponseWriter.fresh, StatusBadRequest]
      · have hs2 : ¬ fh.Size > 20971520 := by simpa [maxUploadSize] using hs
        cases hr : file.ReadAll with
        | error e =>
          have hst : st = .readPayload := by
            simpa [earliestFailure, pipeline, Step.fails, Request.form, Request.part,
              Request.payload, hp, hf, hs2, hr] using h.symm
          subst hst
          refine ⟨_, serve_read_error port rootPath ips o r _ form file fh e hm hp hf hs hr, ?_⟩
          simp [World.start, Step.message, Call.step, Step.index, renderError, ResponseWriter.Write,
              ResponseWriter.WriteHeader, ResponseWriter.fresh, StatusBadRequest]
        | ok b =>
          cases hc : o.createFails (filepath.Join rootPath fh.Filename) with
          | true =>
            have hst : st = .createFile := by
              simpa [earliestFailure, pipeline, Step.fails, Request.form, Request.part,
                Request.payload, hp, hf, hs2, hr, hc] using h.symm
            subst hst
            refine ⟨_, serve_create_error port rootPath ips o r _ form file fh b hm hp hf hs hr hc,
              ?_⟩
            simp [World.start, Step.message, Call.step, Step.index, renderError, ResponseWriter.Write,
              ResponseWriter.WriteHeader, ResponseWriter.fresh, StatusBadRequest]
          | false =>
            cases hw : o.writeFails with
            | some n =>
              have hst : st = .writeFile := by
                simpa [earliestFailure, pipeline, Step.fails, Request.form, Request.part,
                  Request.payload, hp, hf, hs2, hr, hc, hw] using h.symm
              subst hst
              refine ⟨_, serve_write_error port rootPath ips o r _ form file fh b n hm hp hf hs hr
                hc hw, ?_⟩
              simp [World.start, Step.message, Call.step, Step.index, renderError, ResponseWriter.Write,
              ResponseWriter.WriteHeader, ResponseWriter.fresh, StatusBadRequest]
            | none =>
              cases hcl : o.closeFails with
              | true =>
                have hst : st = .writeFile := by
                  simpa [earliestFailure, pipeline, Step.fails, Request.form, Request.part,
                    Request.payload, hp, hf, hs2, hr, hc, hw, hcl] using h.symm
                subst hst
                refine ⟨_, serve_close_error port rootPath ips o r _ form file fh b hm hp hf hs hr
                  hc hw hcl, ?_⟩
                simp [World.start, Step.message, Call.step, Step.index, renderError, ResponseWriter.Write,
              ResponseWriter.WriteHeader, ResponseWriter.fresh, StatusBadRequest]
              | false =>
                simp [earliestFailure, pipeline, Step.fails, Request.form, Request.part,
                  Request.payload, hp, hf, hs2, hr, hc, hw, hcl] at h

theorem serve_post_no_failure (port : Int) (rootPath : String) (ips : List String)
    (o : OS) (r : Request) (fs : FS) (hm : r.Method ≠ "GET")
    (h : earliestFailure rootPath o r = none) :
    ∃ s' p b, r.part = some p ∧ r.payload = some b
      ∧ uploadFileHandler.serve port rootPath ips o r (World.start fs) = .returned s'
      ∧ s'.w = ResponseWriter.fresh.Write (p.2.Filename ++ " upload success")
      ∧ s'.fs = fs.set (filepath.Join rootPath p.2.Filename) b := by
  cases hp : r.ParseMultipartForm maxUploadSize with
  | error e => simp [earliestFailure, pipeline, Step.fails, Request.form, hp] at h
  | ok form =>
    cases hf : FormFile form "uploadFile" with
    | error e =>
      simp [earliestFailure, pipeline, Step.fails, Request.form, Request.part, hp, hf] at h
    | ok p =>
      obtain ⟨file, fh⟩ := p
      by_cases hs : fh.Size > maxUploadSize
      · have hs2 : fh.Size > 20971520 := by simpa [maxUploadSize] using hs
        simp [earliestFailure, pipeline, Step.fails, Request.form, Request.part, hp, hf, hs2] at h
      · cases hr : file.ReadAll with
        | error e =>
          simp [earliestFailure, pipeline, Step.fails, Request.form, Request.part,
            Request.payload, hp, hf, hr] at h
        | ok b =>
          cases hc : o.createFails (filepath.Join rootPath fh.Filename) with
          | true =>
            simp [earliestFailure, pipeline, Step.fails, Request.form, Request.part,
              Request.payload, hp, hf, hr, hc] at h
          | false =>
            cases hw : o.writeFails with
            | some n =>
              simp [earliestFailure, pipeline, Step.fails, Request.form, Request.part,
                Request.payload, hp, hf, hr, hc, hw] at h
            | none =>
              cases hcl : o.closeFails with
              | true =>
                simp [earliestFailure, pipeline, Step.fails, Request.form, Request.part,
                  Request.payload, hp, hf, hr, hc, hw, hcl] at h
              | false =>
                refine ⟨_, (file, fh), b, ?_, ?_,
                  serve_success port rootPath ips o r _ form file fh b hm hp hf hs hr hc hw hcl,
                  ?_, ?_⟩
                · simp [Request.part, Request.form, hp, hf]
                · simp [Request.payload, Request.part, Request.form, hp, hf, hr]
                · simp [World.start]
                · simp [World.start]

theorem body_single (st : Option Nat) (m : String) :
    ({ status := st, writes := [m] } : ResponseWriter).body = m := by
  simp [ResponseWriter.body, String.join]

theorem post_ne_get (r : Request) (hm : r.Method = "POST") : r.Method ≠ "GET" := by
  rw [hm]
  decide

theorem serve_fs_cases (port : Int) (rootPath : String) (ips : List String)
    (o : OS) (r : Request) (fs : FS) :
    (uploadFileHandler.serve port rootPath ips o r (World.start fs)).world.fs = fs
      ∨ ∃ p b n, r.part = some p ∧ p.1.ReadAll = .ok b ∧ ¬ p.2.Size > 20971520
          ∧ (uploadFileHandler.serve port rootPath ips o r (World.start fs)).world.fs
              = fs.set (filepath.Join rootPath p.2.Filename) (b.take n) := by
  by_cases hm : r.Method = "GET"
  · left
    cases ips with
    | nil => rw [serve_get_nil port rootPath o r _ hm]; rfl
    | cons ip0 rest => rw [serve_get_cons port rootPath ip0 rest o r _ hm]; rfl
  · cases hp : r.ParseMultipartForm maxUploadSize with
    | error e => left; rw [serve_parse_error port rootPath ips o r _ e hm hp]; rfl
    | ok form =>
      cases hf : FormFile form "uploadFile" with
      | error e => left; rw [serve_formfile_error port rootPath ips o r _ form e hm hp hf]; rfl
      | ok p =>
        obtain ⟨file, fh⟩ := p
        by_cases hs : fh.Size > maxUploadSize
        · left; rw [serve_too_big port rootPath ips o r _ form file fh hm hp hf hs]; rfl
        · have hs2 : ¬ fh.Size > 20971520 := by simpa [maxUploadSize] using hs
          cases hr : file.ReadAll with
          | error e =>
            left; rw [serve_read_error port rootPath ips o r _ form file fh e hm hp hf hs hr]; rfl
          | ok b =>
            have hpart : r.part = some (file, fh) := by simp [Request.part, Request.form, hp, hf]
            cases hc : o.createFails (filepath.Join rootPath fh.Filename) with
            | true =>
              left
              rw [serve_create_error port rootPath ips o r _ form file fh b hm hp hf hs hr hc]
              rfl
            | false =>
              right
              cases hw : o.writeFails with
              | some n =>
                refine ⟨(file, fh), b, n, hpart, hr, hs2, ?_⟩
                rw [serve_write_error port rootPath ips o r _ form file fh b n hm hp hf hs hr hc
                  hw]
                rfl
              | none =>
                refine ⟨(file, fh), b, b.length, hpart, hr, hs2, ?_⟩
                rw [List.take_length]
                cases hcl : o.closeFails with
                | true =>
                  rw [serve_close_error port rootPath ips o r _ form file fh b hm hp hf hs hr hc
                    hw hcl]
                  rfl
                | false =>
                  rw [serve_success port rootPath ips o r _ form file fh b hm hp hf hs hr hc
                    hw hcl]
                  rfl

theorem part_unfold (r : Request) (p : File × FileHeader) (h : r.part = some p) :
    ∃ form, r.ParseMultipartForm maxUploadSize = .ok form
      ∧ FormFile form "uploadFile" = .ok p := by
  cases hp : r.ParseMultipartForm maxUploadSize with
  | error e => simp [Request.part, Request.form, hp] at h
  | ok form =>
    cases hf : FormFile form "uploadFile" with
    | error e => simp [Request.part, Request.form, hp, hf] at h
    | ok q =>
      have : q = p := by simpa [Request.part, Request.form, hp, hf] using h
      exact ⟨form, rfl, by rw [hf, this]⟩

theorem upload_round_trip_aux (port : Int) (rootPath : String) (localIps : List String)
    (o : OS) (r : Request) (fs : FS) (form : Form) (file : File) (fh : FileHeader)
    (payload : Bytes)
    (hm : r.Method = "POST")
    (hp : r.ParseMultipartForm maxUploadSize = .ok form)
    (hf : FormFile form "uploadFile" = .ok (file, fh))
    (hs : fh.Size ≤ 20971520)
    (hr : file.ReadAll = .ok payload)
    (hc : o.createFails (filepath.Join rootPath fh.Filename) = false)
    (hw : o.writeFails = none)
    (hcl : o.closeFails = false) :
    ∃ s', uploadFileHandler.serve port rootPath localIps o r (World.start fs) = .returned s'
      ∧ s'.w.status = some 200
      ∧ s'.w.writes = [fh.Filename ++ " upload success"]
      ∧ s'.w.body = fh.Filename ++ " upload success"
      ∧ s'.fs (filepath.Join rootPath fh.Filename) = some payload
      ∧ ∀ p, p ≠ filepath.Join rootPath fh.Filename → s'.fs p = fs p := by
  have hs2 : ¬ fh.Size > maxUploadSize := by
    simp only [maxUploadSize]
    push_cast
    omega
  refine ⟨_, serve_success port rootPath localIps o r _ form file fh payload (post_ne_get r hm)
    hp hf hs2 hr hc hw hcl, ?_, ?_, ?_, ?_, ?_⟩
  · simp [ResponseWriter.Write, ResponseWriter.WriteHeader, World.start, ResponseWriter.fresh,
      StatusOK]
  · simp [ResponseWriter.Write, ResponseWriter.WriteHeader, World.start, ResponseWriter.fresh]
  · simp [ResponseWriter.Write, ResponseWriter.WriteHeader, World.start, ResponseWriter.fresh,
      ResponseWriter.body, String.join]
  · simp [World.start, FS.set_same]
  · intro p hp2
    simp [World.start, FS.set_other _ _ _ _ hp2]

theorem uploadForm_formFile (name : String) (size : Int) (payload : Bytes) (h : name ≠ "") :
    FormFile (uploadForm name size payload) "uploadFile"
      = .ok ({ ReadAll := .ok payload }, FileHeader.ofPart name size payload) := by
  simp only [FormFile, uploadForm, h, ne_eq, not_false_eq_true, and_self, if_true,
    FileHeader.ofPart]

theorem uploadRequest_part (name : String) (size : Int) (payload : Bytes) (h : name ≠ "") :
    (uploadRequest name size payload).part
      = some ({ ReadAll := .ok payload }, FileHeader.ofPart name size payload) := by
  simp only [Request.part, Request.form, uploadRequest, uploadForm_formFile name size payload h]

/-! ## The claims -/

/-- C1: a POST whose form parses and whose `uploadFile` part declares a
size above 20 MiB (20971520 bytes) is answered with status 400 and body
`FILE_TOO_BIG`; the file system is unchanged, and after the form and the
part have been obtained no read, create or write is made. -/
theorem oversized_upload_rejected (port : Int) (rootPath : String) (localIps : List String)
    (o : OS) (r : Request) (fs : FS) (form : Form) (file : File) (fh : FileHeader)
    (hm : r.Method = "POST")
    (hp : r.ParseMultipartForm maxUploadSize = .ok form)
    (hf : FormFile form "uploadFile" = .ok (file, fh))
    (hs : fh.Size > 20971520) :
    ∃ s', uploadFileHandler.serve port rootPath localIps o r (World.start fs) = .returned s'
      ∧ s'.w.status = some 400
      ∧ s'.w.body = "FILE_TOO_BIG"
      ∧ s'.fs = fs
      ∧ s'.calls = [.ParseMultipartForm 20971520, .FormFile "uploadFile"] := by
  have hs2 : fh.Size > maxUploadSize := by simpa [maxUploadSize] using hs
  refine ⟨_, serve_too_big port rootPath localIps o r _ form file fh (post_ne_get r hm) hp hf hs2,
    ?_, ?_, ?_, ?_⟩
  · simp [renderError, ResponseWriter.Write, ResponseWriter.WriteHeader, World.start,
      ResponseWriter.fresh, StatusBadRequest]
  · simp [renderError, ResponseWriter.Write, ResponseWriter.WriteHeader, World.start,
      ResponseWriter.fresh, ResponseWriter.body, String.join]
  · simp [World.start]
  · simp [World.start, maxUploadSize]

theorem oversized_upload_rejected_witness :
    ∃ s', uploadFileHandler.serve 9000 "/tmp/store" ["192.168.1.10"] okOS
        (uploadRequest "big.bin" 20971521 (List.replicate 20971521 0)) (World.start emptyFS)
        = .returned s'
      ∧ s'.w.status = some 400
      ∧ s'.w.body = "FILE_TOO_BIG"
      ∧ s'.fs = emptyFS
      ∧ s'.calls = [.ParseMultipartForm 20971520, .FormFile "uploadFile"] :=
  oversized_upload_rejected 9000 "/tmp/store" ["192.168.1.10"] okOS
    (uploadRequest "big.bin" 20971521 (List.replicate 20971521 0)) emptyFS
    (uploadForm "big.bin" 20971521 (List.replicate 20971521 0))
    { ReadAll := .ok (List.replicate 20971521 0) }
    (FileHeader.ofPart "big.bin" 20971521 (List.replicate 20971521 0))
    rfl rfl (uploadForm_formFile _ _ _ (by decide)) (by decide)

/-- C2, as the specification states it, fails on the later GET.  A file
uploaded under the separator-free name `upload` is stored (status 200, the
bytes at `/tmp/store/upload`), but a GET of `/upload` is routed to the
upload handler and answered with the form, not with the file; and a GET of
`/index.html` is redirected to `./` by the static file server. -/
theorem uploaded_upload_not_served_back :
    (∃ s', uploadFileHandler.serve 9000 "/tmp/store" ["192.168.1.10"] okOS
        (uploadRequest "upload" 10 helloBytes) (World.start emptyFS) = .returned s'
      ∧ s'.w.status = some 200
      ∧ s'.w.body = "upload upload success"
      ∧ s'.fs "/tmp/store/upload" = some helloBytes
      ∧ main.serve 9000 "/tmp/store" ["192.168.1.10"] okOS getRequest "/upload" s'.fs
          = .handled (.returned
              { w := { status := some 200,
                       writes := [tplBefore, "192.168.1.10:9000", tplAfter] },
                fs := s'.fs, calls := [] })
      ∧ main.serve 9000 "/tmp/store" ["192.168.1.10"] okOS getRequest "/upload" s'.fs
          ≠ .file helloBytes)
      ∧ main.serve 9000 "/tmp/store" ["192.168.1.10"] okOS getRequest "/index.html"
          (emptyFS.set "/tmp/store/index.html" helloBytes) = .moved "./" := by
  have hb : filepath.Base "upload" = "upload" := by decide
  have hj : filepath.Join "/tmp/store" "upload" = "/tmp/store/upload" := by decide
  have hget : ∀ fs : FS,
      main.serve 9000 "/tmp/store" ["192.168.1.10"] okOS getRequest "/upload" fs
        = .handled (.returned
            { w := { status := some 200,
                     writes := [tplBefore, "192.168.1.10:9000", tplAfter] },
              fs := fs, calls := [] }) := by
    intro fs
    have hcp : cleanPath "/upload" = "/upload" := by decide
    have hsafe : ∀ c ∈ ("192.168.1.10" ++ ":" ++ Itoa 9000).data, c ∈ urlSafeChars := by decide
    have hdata : "192.168.1.10" ++ ":" ++ Itoa 9000 = "192.168.1.10:9000" := by decide
    unfold main.serve
    rw [hcp]
    simp only [ne_eq, not_true_eq_false, if_false, if_true]
    have hex := execute_tpl_safe _ hsafe
    rw [hdata] at hex
    rw [serve_get_cons 9000 "/tmp/store" "192.168.1.10" [] okOS getRequest _ rfl]
    simp only [World.start, hdata, hex]
  refine ⟨?_, rfl⟩
  obtain ⟨s', h1, h2, _, h4, h5, _⟩ :=
    upload_round_trip_aux 9000 "/tmp/store" ["192.168.1.10"] okOS
      (uploadRequest "upload" 10 helloBytes) emptyFS
      (uploadForm "upload" 10 helloBytes) { ReadAll := .ok helloBytes }
      (FileHeader.ofPart "upload" 10 helloBytes) helloBytes rfl rfl
      (uploadForm_formFile _ _ _ (by decide)) (by decide) rfl rfl rfl rfl
  simp only [FileHeader.ofPart, hb, hj] at h4 h5
  refine ⟨s', h1, h2, h4, h5, hget s'.fs, ?_⟩
  rw [hget s'.fs]
  intro h0
  cases h0

/-- C2, amended: a POST with a parsed form whose `uploadFile` part declares
at most 20 MiB and can be read, and whose file name has no path separator
and is none of the empty name, `.`, `..`, `upload` and `index.html`, when
create, write and close succeed, is answered with status 200 and body
exactly `<filename> upload success`; afterwards the file at
`filepath.Join rootPath filename` holds exactly the uploaded bytes,
whatever it held before, every other file is as it was, and a subsequent
GET of `/<filename>` is answered by the static file server with exactly
those bytes. -/
theorem upload_then_get_round_trip (port : Int) (rootPath : String)
    (localIps : List String) (o o2 : OS) (r g : Request) (fs : FS) (form : Form) (file : File)
    (fh : FileHeader) (payload : Bytes)
    (hm : r.Method = "POST")
    (hp : r.ParseMultipartForm maxUploadSize = .ok form)
    (hf : FormFile form "uploadFile" = .ok (file, fh))
    (hs : fh.Size ≤ 20971520)
    (hr : file.ReadAll = .ok payload)
    (hc : o.createFails (filepath.Join rootPath fh.Filename) = false)
    (hw : o.writeFails = none)
    (hcl : o.closeFails = false)
    (hsep : '/' ∉ fh.Filename.data)
    (hname : fh.Filename ∉ ["", ".", "..", "upload", "index.html"])
    (hg : g.Method = "GET") :
    ∃ s', uploadFileHandler.serve port rootPath localIps o r (World.start fs) = .returned s'
      ∧ s'.w.status = some 200
      ∧ s'.w.writes = [fh.Filename ++ " upload success"]
      ∧ s'.w.body = fh.Filename ++ " upload success"
      ∧ s'.fs (filepath.Join rootPath fh.Filename) = some payload
      ∧ (∀ p, p ≠ filepath.Join rootPath fh.Filename → s'.fs p = fs p)
      ∧ main.serve port rootPath localIps o2 g ("/" ++ fh.Filename) s'.fs = .file payload := by
  obtain ⟨s', h1, h2, h3, h4, h5, h6⟩ :=
    upload_round_trip_aux port rootPath localIps o r fs form file fh payload hm hp hf hs hr hc hw
      hcl
  simp only [List.mem_cons, List.mem_singleton, List.not_mem_nil, or_false, not_or] at hname
  obtain ⟨n1, n2, n3, n4, n5⟩ := hname
  have hhead : g.Method ≠ "HEAD" := by
    rw [hg]
    decide
  exact ⟨s', h1, h2, h3, h4, h5, h6,
    main_serve_plain port rootPath localIps o2 g fh.Filename s'.fs payload hsep n1 n2 n3 n4 n5
      hhead h5⟩

theorem upload_then_get_round_trip_witness :
    ∃ s', uploadFileHandler.serve 9000 "/tmp/store" ["192.168.1.10"] okOS
        (uploadRequest "hello.txt" 10 helloBytes)
        (World.start (emptyFS.set "/tmp/store/hello.txt" [1, 2, 3])) = .returned s'
      ∧ s'.w.status = some 200
      ∧ s'.w.body = "hello.txt upload success"
      ∧ s'.fs "/tmp/store/hello.txt" = some helloBytes
      ∧ main.serve 9000 "/tmp/store" ["192.168.1.10"] okOS getRequest "/hello.txt" s'.fs
          = .file helloBytes := by
  have hb : filepath.Base "hello.txt" = "hello.txt" := by decide
  have hj : filepath.Join "/tmp/store" "hello.txt" = "/tmp/store/hello.txt" := by decide
  have hu : "/" ++ "hello.txt" = "/hello.txt" := by decide
  obtain ⟨s', h1, h2, _, h4, h5, _, h7⟩ :=
    upload_then_get_round_trip 9000 "/tmp/store" ["192.168.1.10"] okOS okOS
      (uploadRequest "hello.txt" 10 helloBytes) getRequest
      (emptyFS.set "/tmp/store/hello.txt" [1, 2, 3])
      (uploadForm "hello.txt" 10 helloBytes) { ReadAll := .ok helloBytes }
      (FileHeader.ofPart "hello.txt" 10 helloBytes) helloBytes rfl rfl
      (uploadForm_formFile _ _ _ (by decide)) (by decide) rfl rfl rfl rfl
      (by decide) (by decide) rfl
  simp only [FileHeader.ofPart, hb, hj, hu] at h4 h5 h7
  exact ⟨s', h1, h2, h4, h5, h7⟩

/-- C3, as the specification states it, fails: a POST whose client-supplied
file name is `../../etc/passwd` (a name with `..` segments) is not refused.
The multipart reader hands the handler the last element `passwd`, the
response is status 200 with `passwd upload success`, and the payload is
written to `/tmp/store/passwd`, a file that did not exist before; nothing is
written at `/etc/passwd`. -/
theorem traversal_upload_is_accepted :
    hasDotDotSegment "../../etc/passwd" = true
      ∧ filepath.Base "../../etc/passwd" = "passwd"
      ∧ emptyFS "/tmp/store/passwd" = none
      ∧ ∃ s', uploadFileHandler.serve 9000 "/tmp/store" ["192.168.1.10"] okOS
          (uploadRequest "../../etc/passwd" 3 [1, 2, 3]) (World.start emptyFS) = .returned s'
        ∧ s'.w = { status := some 200, writes := ["passwd upload success"] }
        ∧ s'.fs "/tmp/store/passwd" = some [1, 2, 3]
        ∧ s'.fs "/etc/passwd" = none := by
  have hb : filepath.Base "../../etc/passwd" = "passwd" := by decide
  have hj : filepath.Join "/tmp/store" "passwd" = "/tmp/store/passwd" := by decide
  refine ⟨by decide, hb, rfl, ?_⟩
  refine ⟨_, serve_success 9000 "/tmp/store" ["192.168.1.10"] okOS
      (uploadRequest "../../etc/passwd" 3 [1, 2, 3]) (World.start emptyFS)
      (uploadForm "../../etc/passwd" 3 [1, 2, 3]) { ReadAll := .ok [1, 2, 3] }
      (FileHeader.ofPart "../../etc/passwd" 3 [1, 2, 3])
      [1, 2, 3] (by decide) rfl (uploadForm_formFile _ _ _ (by decide)) (by decide) rfl rfl rfl
      rfl, ?_, ?_, ?_⟩
  · simp [FileHeader.ofPart, hb, ResponseWriter.Write, ResponseWriter.WriteHeader, World.start,
      ResponseWriter.fresh, StatusOK]
  · simp only [FileHeader.ofPart, hb, hj, FS.set_same]
  · simp only [FileHeader.ofPart, hb, hj, World.start]
    rw [FS.set_other _ _ _ _ (by decide)]
    rfl

/-- C3, amended: a POST whose client-supplied file name contains a `..`
segment is not refused because of the name.  The handler receives the last
element of the name (`filepath.Base`, as the multipart reader stores it) and
checks nothing: the upload is refused, with status 400 and the message of
the earliest failing step, only when a step of the pipeline fails; when
none fails the response is status 200 with `<last element> upload success`
and the payload is written at `filepath.Join rootPath <last element>`,
nothing else changing.  When the last element is none of `.`, `..` and `/`
that path is the file of that name directly inside the cleaned root, so no
file outside the root is written. -/
theorem traversal_name_reduced_to_base (port : Int) (rootPath : String)
    (localIps : List String) (o : OS) (r : Request) (fs : FS) (p : File × FileHeader)
    (clientName : String)
    (hm : r.Method = "POST")
    (hpart : r.part = some p)
    (hname : p.2.Filename = filepath.Base clientName)
    (_hdots : hasDotDotSegment clientName = true) :
    (∃ s', uploadFileHandler.serve port rootPath localIps o r (World.start fs) = .returned s'
      ∧ match earliestFailure rootPath o r with
        | some st => s'.w.status = some 400 ∧ s'.w.body = st.message
        | none =>
          ∃ b, r.payload = some b
            ∧ s'.w.status = some 200
            ∧ s'.w.body = filepath.Base clientName ++ " upload success"
            ∧ s'.fs = fs.set (filepath.Join rootPath (filepath.Base clientName)) b)
      ∧ (filepath.Base clientName ≠ "." → filepath.Base clientName ≠ ".." →
          filepath.Base clientName ≠ "/" →
          filepath.Join rootPath (filepath.Base clientName)
            = underRoot (filepath.Clean rootPath) (filepath.Base clientName)) := by
  refine ⟨?_, ?_⟩
  · cases h : earliestFailure rootPath o r with
    | some st =>
      obtain ⟨s', h1, h2, _⟩ := serve_post_failure port rootPath localIps o r fs st
        (post_ne_get r hm) h
      exact ⟨s', h1, by simp [h2], by rw [h2, body_single]⟩
    | none =>
      obtain ⟨s', q, b, hq, hb, h1, h2, h3⟩ := serve_post_no_failure port rootPath localIps o r
        fs (post_ne_get r hm) h
      have hqp : q = p := by
        rw [hpart] at hq
        exact (Option.some.inj hq).symm
      subst hqp
      rw [hname] at h2 h3
      refine ⟨s', h1, b, hb, ?_, ?_, h3⟩
      · simp [h2, ResponseWriter.Write, ResponseWriter.WriteHeader, ResponseWriter.fresh,
          StatusOK]
      · simp [h2, ResponseWriter.Write, ResponseWriter.WriteHeader, ResponseWriter.fresh,
          ResponseWriter.body, String.join]
  · intro n1 n2 n3
    rcases base_cases clientName with h | h | ⟨h4, h5⟩
    · exact absurd h n1
    · exact absurd h n3
    · exact join_plain rootPath (filepath.Base clientName) h4 h5 n1 n2

theorem traversal_name_reduced_to_base_witness :
    (∃ s', uploadFileHandler.serve 8000 "/srv/files" [] okOS (uploadRequest "../x" 2 [7, 8])
        (World.start emptyFS) = .returned s'
      ∧ ∃ b, (uploadRequest "../x" 2 [7, 8]).payload = some b
        ∧ s'.w.status = some 200
        ∧ s'.w.body = "x upload success"
        ∧ s'.fs = emptyFS.set "/srv/files/x" b)
      ∧ filepath.Join "/srv/files" "x" = underRoot "/srv/files" "x" := by
  have hb : filepath.Base "../x" = "x" := by decide
  have hj : filepath.Join "/srv/files" "x" = "/srv/files/x" := by decide
  have hc : filepath.Clean "/srv/files" = "/srv/files" := by decide
  have hx : "x" ++ " upload success" = "x upload success" := by decide
  have he : earliestFailure "/srv/files" okOS (uploadRequest "../x" 2 [7, 8]) = none := by
    decide
  obtain ⟨⟨s', h1, h2⟩, h3⟩ :=
    traversal_name_reduced_to_base 8000 "/srv/files" [] okOS (uploadRequest "../x" 2 [7, 8])
      emptyFS ({ ReadAll := .ok [7, 8] }, FileHeader.ofPart "../x" 2 [7, 8]) "../x"
      rfl (uploadRequest_part _ _ _ (by decide)) rfl (by decide)
  rw [he] at h2
  simp only [hb, hj, hc, hx] at h2 h3
  exact ⟨⟨s', h1, h2⟩, h3 (by decide) (by decide) (by decide)⟩

/-- C4: a POST whose form parses but has no file field `uploadFile`, or
whose first `uploadFile` part cannot be opened, is answered with status 400
and body `INVALID_FILE`; the file system is unchanged and no read, create
or write is made. -/
theorem missing_upload_file_rejected (port : Int) (rootPath : String)
    (localIps : List String) (o : OS) (r : Request) (fs : FS) (form : Form)
    (hm : r.Method = "POST")
    (hp : r.ParseMultipartForm maxUploadSize = .ok form)
    (hmiss : form.File "uploadFile" = []
      ∨ ∃ fh rest e, form.File "uploadFile" = fh :: rest ∧ fh.Open = .error e) :
    ∃ s', uploadFileHandler.serve port rootPath localIps o r (World.start fs) = .returned s'
      ∧ s'.w.status = some 400
      ∧ s'.w.body = "INVALID_FILE"
      ∧ s'.fs = fs
      ∧ s'.calls = [.ParseMultipartForm 20971520, .FormFile "uploadFile"] := by
  have hf : ∃ e, FormFile form "uploadFile" = .error e := by
    rcases hmiss with h | ⟨fh, rest, e, h, he⟩
    · exact ⟨"http: no such file", by simp [FormFile, h]⟩
    · exact ⟨e, by simp [FormFile, h, he]⟩
  obtain ⟨e, hf⟩ := hf
  refine ⟨_, serve_formfile_error port rootPath localIps o r _ form e (post_ne_get r hm) hp hf,
    ?_, ?_, ?_, ?_⟩
  · simp [renderError, ResponseWriter.Write, ResponseWriter.WriteHeader, World.start,
      ResponseWriter.fresh, StatusBadRequest]
  · simp [renderError, ResponseWriter.Write, ResponseWriter.WriteHeader, World.start,
      ResponseWriter.fresh, ResponseWriter.body, String.join]
  · simp [World.start]
  · simp [World.start, maxUploadSize]

theorem missing_upload_file_rejected_witness :
    ∃ s', uploadFileHandler.serve 9000 "/tmp/store" ["192.168.1.10"] okOS noFileRequest
        (World.start emptyFS) = .returned s'
      ∧ s'.w.status = some 400
      ∧ s'.w.body = "INVALID_FILE"
      ∧ s'.fs = emptyFS
      ∧ s'.calls = [.ParseMultipartForm 20971520, .FormFile "uploadFile"] :=
  missing_upload_file_rejected 9000 "/tmp/store" ["192.168.1.10"] okOS noFileRequest emptyFS
    { File := fun _ => [] } rfl rfl (Or.inl rfl)

/-- C5: `renderError` writes status 400 and the message as the body for
every message and every `statusCode` argument, and every POST that fails at
some step of the pipeline (parse and create/write failures included, for
which the handler passes 500) is answered with status 400 and that step's
message; a POST with no failing step is answered with status 200. -/
theorem error_responses_status_400 :
    (∀ (message : String) (statusCode : Nat),
        renderError ResponseWriter.fresh message statusCode
          = { status := some 400, writes := [message] })
      ∧ ∀ (port : Int) (rootPath : String) (localIps : List String) (o : OS) (r : Request)
          (fs : FS), r.Method = "POST" →
          ∃ s', uploadFileHandler.serve port rootPath localIps o r (World.start fs)
              = .returned s'
            ∧ match earliestFailure rootPath o r with
              | some st => s'.w.status = some 400 ∧ s'.w.body = st.message
              | none => s'.w.status = some 200 := by
  refine ⟨?_, ?_⟩
  · intro message statusCode
    simp [renderError, ResponseWriter.Write, ResponseWriter.WriteHeader, ResponseWriter.fresh,
      StatusBadRequest]
  · intro port rootPath localIps o r fs hm
    cases h : earliestFailure rootPath o r with
    | some st =>
      obtain ⟨s', h1, h2, _⟩ := serve_post_failure port rootPath localIps o r fs st
        (post_ne_get r hm) h
      exact ⟨s', h1, by simp [h2], by rw [h2, body_single]⟩
    | none =>
      obtain ⟨s', q, b, _, _, h1, h2, _⟩ := serve_post_no_failure port rootPath localIps o r fs
        (post_ne_get r hm) h
      refine ⟨s', h1, ?_⟩
      simp [h2, ResponseWriter.Write, ResponseWriter.WriteHeader, ResponseWriter.fresh, StatusOK]

theorem error_responses_status_400_witness :
    ∃ s', uploadFileHandler.serve 9000 "/tmp/store" ["192.168.1.10"] okOS badFormRequest
        (World.start emptyFS) = .returned s'
      ∧ s'.w.status = some 400 ∧ s'.w.body = "CANT_PARSE_FORM" :=
  error_responses_status_400.2 9000 "/tmp/store" ["192.168.1.10"] okOS badFormRequest emptyFS rfl

/-- C6: for a request whose `uploadFile` part declares the size of its
payload, the handler leaves the file system as it was or sets one file to
contents of at most 20971520 bytes; a payload of exactly 20971520 bytes is accepted (status
200 and written whole when create, write and close succeed); and a payload
of 20971521 bytes is rejected with `FILE_TOO_BIG`, the file system
unchanged. -/
theorem written_file_size_bounded :
    (∀ (port : Int) (rootPath : String) (localIps : List String) (o : OS) (r : Request)
        (fs : FS), r.WellFormed →
        (uploadFileHandler.serve port rootPath localIps o r (World.start fs)).world.fs = fs
          ∨ ∃ q b,
              (uploadFileHandler.serve port rootPath localIps o r (World.start fs)).world.fs
                = fs.set q b ∧ b.length ≤ 20971520)
      ∧ (∀ (port : Int) (rootPath : String) (localIps : List String) (o : OS) (r : Request)
          (fs : FS) (p : File × FileHeader) (payload : Bytes), r.WellFormed →
          r.Method = "POST" → r.part = some p → p.1.ReadAll = .ok payload →
          payload.length = 20971520 →
          o.createFails (filepath.Join rootPath p.2.Filename) = false →
          o.writeFails = none → o.closeFails = false →
          ∃ s', uploadFileHandler.serve port rootPath localIps o r (World.start fs)
              = .returned s'
            ∧ s'.w.status = some 200
            ∧ s'.fs (filepath.Join rootPath p.2.Filename) = some payload)
      ∧ ∀ (port : Int) (rootPath : String) (localIps : List String) (o : OS) (r : Request)
          (fs : FS) (p : File × FileHeader) (payload : Bytes), r.WellFormed →
          r.Method = "POST" → r.part = some p → p.1.ReadAll = .ok payload →
          payload.length = 20971521 →
          ∃ s', uploadFileHandler.serve port rootPath localIps o r (World.start fs)
              = .returned s'
            ∧ s'.w.body = "FILE_TOO_BIG"
            ∧ s'.fs = fs := by
  refine ⟨?_, ?_, ?_⟩
  · intro port rootPath localIps o r fs hwf
    rcases serve_fs_cases port rootPath localIps o r fs with h | ⟨p, b, n, hp, hr, hs, h⟩
    · exact Or.inl h
    · refine Or.inr ⟨filepath.Join rootPath p.2.Filename, b.take n, h, ?_⟩
      have hsz := hwf p b hp hr
      have hle : (b.take n).length ≤ b.length := by
        rw [List.length_take]
        exact Nat.min_le_right _ _
      omega
  · intro port rootPath localIps o r fs p payload hwf hm hp hr hlen hc hw hcl
    obtain ⟨form, hpf, hff⟩ := part_unfold r p hp
    have hsz := hwf p payload hp hr
    have hs : p.2.Size ≤ 20971520 := by omega
    obtain ⟨s', h1, h2, _, _, h5, _⟩ :=
      upload_round_trip_aux port rootPath localIps o r fs form p.1 p.2 payload hm hpf hff hs hr
        hc hw hcl
    exact ⟨s', h1, h2, h5⟩
  · intro port rootPath localIps o r fs p payload hwf hm hp hr hlen
    obtain ⟨form, hpf, hff⟩ := part_unfold r p hp
    have hsz := hwf p payload hp hr
    have hs : p.2.Size > maxUploadSize := by
      simp only [maxUploadSize]
      push_cast
      omega
    refine ⟨_, serve_too_big port rootPath localIps o r _ form p.1 p.2 (post_ne_get r hm) hpf hff
      hs, ?_, ?_⟩
    · simp [renderError, ResponseWriter.Write, ResponseWriter.WriteHeader, World.start,
        ResponseWriter.fresh, ResponseWriter.body, String.join]
    · simp [World.start]

theorem written_file_size_bounded_witness :
    ((uploadFileHandler.serve 9000 "/tmp/store" ["192.168.1.10"] okOS
          (uploadRequest "hello.txt" 10 helloBytes) (World.start emptyFS)).world.fs = emptyFS
        ∨ ∃ q b,
            (uploadFileHandler.serve 9000 "/tmp/store" ["192.168.1.10"] okOS
              (uploadRequest "hello.txt" 10 helloBytes) (World.start emptyFS)).world.fs
              = emptyFS.set q b ∧ b.length ≤ 20971520)
      ∧ (∃ s', uploadFileHandler.serve 9000 "/tmp/store" ["192.168.1.10"] okOS
            (uploadRequest "max.bin" 20971520 (List.replicate 20971520 0)) (World.start emptyFS)
            = .returned s'
          ∧ s'.w.status = some 200
          ∧ s'.fs (filepath.Join "/tmp/store" "max.bin") = some (List.replicate 20971520 0))
      ∧ ∃ s', uploadFileHandler.serve 9000 "/tmp/store" ["192.168.1.10"] okOS
            (uploadRequest "over.bin" 20971521 (List.replicate 20971521 0)) (World.start emptyFS)
            = .returned s'
          ∧ s'.w.body = "FILE_TOO_BIG"
          ∧ s'.fs = emptyFS := by
  have hwf : ∀ (name : String) (n : Nat) (payload : Bytes), name ≠ "" → payload.length = n →
      (uploadRequest name n payload).WellFormed := by
    intro name n payload hne hn p b hp hb
    rw [uploadRequest_part name n payload hne] at hp
    cases hp
    cases hb
    show (n : Int) = (payload.length : Int)
    rw [hn]
  refine ⟨?_, ?_, ?_⟩
  · exact written_file_size_bounded.1 9000 "/tmp/store" ["192.168.1.10"] okOS
      (uploadRequest "hello.txt" 10 helloBytes) emptyFS
      (hwf "hello.txt" 10 helloBytes (by decide) rfl)
  · have hb : filepath.Base "max.bin" = "max.bin" := by decide
    have h := written_file_size_bounded.2.1 9000 "/tmp/store" ["192.168.1.10"] okOS
      (uploadRequest "max.bin" 20971520 (List.replicate 20971520 0)) emptyFS
      ({ ReadAll := .ok (List.replicate 20971520 0) },
       FileHeader.ofPart "max.bin" 20971520 (List.replicate 20971520 0))
      (List.replicate 20971520 0)
      (hwf "max.bin" 20971520 _ (by decide) (List.length_replicate _ _)) rfl
      (uploadRequest_part _ _ _ (by decide)) rfl
      (List.length_replicate _ _) rfl rfl rfl
    simp only [FileHeader.ofPart, hb] at h
    exact h
  · exact written_file_size_bounded.2.2 9000 "/tmp/store" ["192.168.1.10"] okOS
      (uploadRequest "over.bin" 20971521 (List.replicate 20971521 0)) emptyFS
      ({ ReadAll := .ok (List.replicate 20971521 0) },
       FileHeader.ofPart "over.bin" 20971521 (List.replicate 20971521 0))
      (List.replicate 20971521 0)
      (hwf "over.bin" 20971521 _ (by decide) (List.length_replicate _ _)) rfl
      (uploadRequest_part _ _ _ (by decide)) rfl
      (List.length_replicate _ _)

/-- C7: for every list of interface addresses, `GetLocalIPAddrs` returns,
with a nil error, exactly the string forms of the addresses that are IP
networks, not loopback and expressible as IPv4, in enumeration order; with
one such address, `192.168.1.10`, among addresses that do not qualify
(loopback, IPv6), it returns `["192.168.1.10"]`. -/
theorem GetLocalIPAddrs_filters :
    (∀ addrs : List Addr,
        GetLocalIPAddrs addrs none = .ok (list_local_ipv4_addresses addrs, none))
      ∧ ∀ (pre post : List Addr) (mask : List Nat),
          (∀ a ∈ pre ++ post, qualifies a = false) →
          GetLocalIPAddrs (pre ++ [Addr.IPNet [192, 168, 1, 10] mask] ++ post) none
            = .ok (["192.168.1.10"], none) := by
  refine ⟨GetLocalIPAddrs_ok, ?_⟩
  intro pre post mask h
  rw [GetLocalIPAddrs_ok]
  have hpre : pre.filter qualifies = [] :=
    List.filter_eq_nil_iff.mpr (fun a ha => by simp [h a (List.mem_append_left _ ha)])
  have hpost : post.filter qualifies = [] :=
    List.filter_eq_nil_iff.mpr (fun a ha => by simp [h a (List.mem_append_right _ ha)])
  have hl : IP.IsLoopback [192, 168, 1, 10] = false := by decide
  have h4 : (IP.To4 [192, 168, 1, 10]).isSome = true := by decide
  have hq : qualifies (Addr.IPNet [192, 168, 1, 10] mask) = true := by
    simp [qualifies, hl, h4]
  have hs : IP.String [192, 168, 1, 10] = "192.168.1.10" := by decide
  have ht : addrText (Addr.IPNet [192, 168, 1, 10] mask) = "192.168.1.10" := by
    simp [addrText, hs]
  simp [list_local_ipv4_addresses, List.filter_append, hpre, hpost, hq, ht]

theorem GetLocalIPAddrs_filters_witness :
    GetLocalIPAddrs
        (loopbackOnly ++ [Addr.IPNet [192, 168, 1, 10] [255, 255, 255, 0]] ++ [linkLocal6]) none
      = .ok (["192.168.1.10"], none) :=
  GetLocalIPAddrs_filters.2 loopbackOnly [linkLocal6] [255, 255, 255, 0] (by decide)

/-- C8 fails on the code: on a host with only loopback interfaces
`GetLocalIPAddrs` returns the empty list with a nil error, and a GET served
by the handler built from it panics at `localIps[0]` with an index out of
range; nothing is written to the response. -/
theorem loopback_only_get_panics :
    GetLocalIPAddrs loopbackOnly none = .ok ([], none)
      ∧ ∃ h, uploadFileHandler 8000 "." loopbackOnly none = .ok h
        ∧ h okOS getRequest (World.start emptyFS)
            = .panicked "runtime error: index out of range [0] with length 0"
                (World.start emptyFS)
        ∧ (h okOS getRequest (World.start emptyFS)).isReturned = false
        ∧ (h okOS getRequest (World.start emptyFS)).world.w = ResponseWriter.fresh := by
  refine ⟨by decide, uploadFileHandler.serve 8000 "." [], rfl, ?_, ?_, ?_⟩
  · exact serve_get_nil 8000 "." okOS getRequest _ rfl
  · rw [serve_get_nil 8000 "." okOS getRequest _ rfl]
    rfl
  · rw [serve_get_nil 8000 "." okOS getRequest _ rfl]
    rfl

/-- C9: when address discovery yields a non-empty list, a GET served by
the handler built from it returns the upload form with status 200: the
page of `tpl` whose form has `action="http://<first address>:<port>/upload"`,
the port written as its decimal numeral, and a file input named
`uploadFile`; the file system is unchanged and none of the upload
pipeline's calls is made. -/
theorem get_renders_form (port : Int) (rootPath : String) (addrs : List Addr)
    (h : OS → Request → World → Outcome) (ip0 : String) (rest : List String)
    (o : OS) (r : Request) (fs : FS)
    (hips : GetLocalIPAddrs addrs none = .ok (ip0 :: rest, none))
    (hh : uploadFileHandler port rootPath addrs none = .ok h)
    (hm : r.Method = "GET") :
    ∃ s', h o r (World.start fs) = .returned s'
      ∧ s'.w.status = some 200
      ∧ s'.w.body = formOpen ++ "action=\"http://" ++ ip0 ++ ":" ++ toString port
          ++ "/upload\"" ++ formMiddle ++ "<input type=\"file\" name=\"uploadFile\" />"
          ++ formClose
      ∧ s'.fs = fs
      ∧ s'.calls = [] := by
  have hl : list_local_ipv4_addresses addrs = ip0 :: rest := by
    rw [GetLocalIPAddrs_ok] at hips
    injection hips with h1
    exact (Prod.mk.inj h1).1
  have hhe : h = uploadFileHandler.serve port rootPath (ip0 :: rest) := by
    simp only [uploadFileHandler, hips, dropError] at hh
    injection hh with h1
    exact h1.symm
  have hsafe : ∀ c ∈ (ip0 ++ ":" ++ Itoa port).data, c ∈ urlSafeChars := by
    intro c hc
    simp only [String.data_append, List.mem_append] at hc
    rcases hc with (hc | hc) | hc
    · exact discovered_safe addrs ip0 (by rw [hl]; simp) c hc
    · have : c = ':' := by simpa using hc
      rw [this]
      decide
    · exact Itoa_safe port c hc
  subst hhe
  refine ⟨_, serve_get_cons port rootPath ip0 rest o r _ hm, ?_, ?_, rfl, rfl⟩
  · show (Template.Execute (Template.Parse tpl) ResponseWriter.fresh
      (ip0 ++ ":" ++ Itoa port)).status = some 200
    rw [execute_tpl_safe _ hsafe]
  · show (Template.Execute (Template.Parse tpl) ResponseWriter.fresh
      (ip0 ++ ":" ++ Itoa port)).body = _
    rw [execute_tpl_safe _ hsafe, Itoa_eq_toString]
    have hb : tplBefore = formOpen ++ "action=\"http://" := by decide
    have ha : tplAfter = "/upload\"" ++ formMiddle
        ++ "<input type=\"file\" name=\"uploadFile\" />" ++ formClose := by decide
    simp only [ResponseWriter.body, String.join, List.foldl, hb, ha]
    apply String.ext
    simp [String.data_append, List.append_assoc]

theorem get_renders_form_witness :
    ∃ s', uploadFileHandler.serve 9000 "/tmp/store" ["192.168.1.10"] okOS getRequest
        (World.start emptyFS) = .returned s'
      ∧ s'.w.status = some 200
      ∧ s'.w.body = formOpen ++ "action=\"http://192.168.1.10:9000/upload\"" ++ formMiddle
          ++ "<input type=\"file\" name=\"uploadFile\" />" ++ formClose
      ∧ s'.fs = emptyFS
      ∧ s'.calls = [] := by
  obtain ⟨s', h1, h2, h3, h4, h5⟩ :=
    get_renders_form 9000 "/tmp/store"
      (loopbackOnly ++ [Addr.IPNet [192, 168, 1, 10] [255, 255, 255, 0]] ++ [linkLocal6])
      (uploadFileHandler.serve 9000 "/tmp/store" ["192.168.1.10"]) "192.168.1.10" []
      okOS getRequest emptyFS (by decide) rfl rfl
  have hx : "action=\"http://192.168.1.10:9000/upload\""
      = "action=\"http://" ++ "192.168.1.10" ++ ":" ++ toString (9000 : Int) ++ "/upload\"" := by
    decide
  refine ⟨s', h1, h2, ?_, h4, h5⟩
  rw [h3, hx]
  simp only [String.append_assoc]

/-- C10: every POST returns with exactly one body written.  When a step of
the pipeline (parse form, extract `uploadFile`, size check, read payload,
create file, write file) fails, the body is the message of the earliest
failing step and no call of a later step is made, so a failure in one of
the first four steps leaves the file system unchanged with no create call;
when no step fails the body is `<filename> upload success`. -/
theorem pipeline_short_circuits :
    pipeline.map Step.message
        = ["CANT_PARSE_FORM", "INVALID_FILE", "FILE_TOO_BIG", "INVALID_FILE",
           "CANT_WRITE_FILE", "CANT_WRITE_FILE"]
      ∧ ∀ (port : Int) (rootPath : String) (localIps : List String) (o : OS) (r : Request)
          (fs : FS), r.Method = "POST" →
          ∃ s', uploadFileHandler.serve port rootPath localIps o r (World.start fs)
              = .returned s'
            ∧ s'.w.writes.length = 1
            ∧ match earliestFailure rootPath o r with
              | some st =>
                s'.w.writes = [st.message]
                  ∧ (∀ c ∈ s'.calls, c.step.index ≤ st.index)
                  ∧ (st.index < 4 → s'.fs = fs ∧ ∀ name, Call.Create name ∉ s'.calls)
              | none => ∃ p, r.part = some p ∧ s'.w.writes = [p.2.Filename ++ " upload success"] := by
  refine ⟨by decide, ?_⟩
  intro port rootPath localIps o r fs hm
  cases h : earliestFailure rootPath o r with
  | some st =>
    obtain ⟨s', h1, h2, h3, h4⟩ := serve_post_failure port rootPath localIps o r fs st
      (post_ne_get r hm) h
    exact ⟨s', h1, by simp [h2], by simp [h2], h3, h4⟩
  | none =>
    obtain ⟨s', q, b, hq, _, h1, h2, _⟩ := serve_post_no_failure port rootPath localIps o r fs
      (post_ne_get r hm) h
    refine ⟨s', h1, ?_, q, hq, ?_⟩
    · simp [h2, ResponseWriter.Write, ResponseWriter.WriteHeader, ResponseWriter.fresh]
    · simp [h2, ResponseWriter.Write, ResponseWriter.WriteHeader, ResponseWriter.fresh]

theorem pipeline_short_circuits_witness :
    ∃ s', uploadFileHandler.serve 9000 "/tmp/store" ["192.168.1.10"] okOS noFileRequest
        (World.start emptyFS) = .returned s'
      ∧ s'.w.writes.length = 1
      ∧ s'.w.writes = ["INVALID_FILE"]
      ∧ (∀ c ∈ s'.calls, c.step.index ≤ 1)
      ∧ (1 < 4 → s'.fs = emptyFS ∧ ∀ name, Call.Create name ∉ s'.calls) :=
  pipeline_short_circuits.2 9000 "/tmp/store" ["192.168.1.10"] okOS noFileRequest emptyFS rfl

end FileServer
